import Mathlib

/-!
Verification of the hslam/response HTTP response writer.

The wire (everything the code writes to the connection's buffered writer
`rw`) is modelled as a `List Char`; Go byte slices become `List Char` as
well.  The connection-level `bufio.Writer` only batches bytes and never
reorders them, so `rw.Write`/`rw.WriteString` append to the wire and
`rw.Flush` is the identity on it.  The middle `bufio.Writer` `w.w`
(wrapping the `chunkWriter`) *does* matter — it decides when the chunk
writer is invoked and with which payload — so it is modelled faithfully
(field `bw` below, function `bwWrite`).

External collaborators (the Go standard library) appear as parameters in
`GoEnv`: the formatted `Date` value produced by `appendTime(time.Now())`,
`http.StatusText`, and `http.DetectContentType`.  `DetectContentType` is
documented to consider at most the first 512 bytes of its argument, so the
embedding applies the parameter to `p.take 512`.
-/

/-- Go `[]byte` / wire contents. -/
abbrev Bytes := List Char

/-- View a Lean string as bytes. -/
def str (s : String) : Bytes := s.data

/-- Source: `var crlf = []byte("\r\n")`. -/
def crlfB : Bytes := str "\r\n"

/-- Source: `var colonSpace = []byte(": ")`. -/
def colonSpaceB : Bytes := str ": "

/-- Source: `defaultContentType = "text/plain; charset=utf-8"` (a constant of
the package; the current code declares it but never uses it). -/
def defaultContentType : String := "text/plain; charset=utf-8"

/-- External (standard-library) inputs of the writer. -/
structure GoEnv where
  /-- The bytes `appendTime(cw.res.dateBuf[:0], time.Now())` produces. -/
  dateStr : Bytes
  /-- `http.StatusText`. -/
  statusText : Int → String
  /-- `http.DetectContentType`; applied to at most 512 bytes. -/
  detectContentType : Bytes → String

/-- The `header` struct (late-computed header set): fields `date`,
`contentLength`, `contentType`, `connection`, `transferEncoding`;
each emitted only when non-empty. -/
structure SetHeader where
  date : Bytes := []
  contentLength : String := ""
  contentType : String := ""
  connection : String := ""
  transferEncoding : String := ""
deriving DecidableEq, Repr

/-- The `chunkWriter` flags: `wroteHeader` (header bytes are on the wire)
and `chunking` (chunked transfer encoding in use). -/
structure ChunkW where
  wroteHeader : Bool := false
  chunking : Bool := false
deriving DecidableEq, Repr

/-- State of one `Response` together with its chunk writer, the middle
`bufio.Writer` and the bytes put on the connection.

`contentLength = none` models the Go sentinel `-1` (no declared length).
`written` is the body byte counter (Go `int64`; it only ever grows by
write lengths, so `Nat` is faithful).  `buffer` is the fixed
pool-provided byte buffer (length `bufSize`); `bw` is the buffered
content of the `bufio.Writer` `w.w` wrapping the chunk writer; `wire` is
everything written to `rw`. -/
structure Resp where
  method : String
  wroteHeader : Bool
  status : Int
  contentLength : Option Nat
  written : Nat
  noCache : Bool
  hijacked : Bool
  handlerDone : Bool
  bufSize : Nat
  buffer : Bytes
  handlerHeader : List (String × String)
  setHeader : SetHeader
  cw : ChunkW
  bw : Bytes
  wire : Bytes
deriving DecidableEq, Repr

/-- `http.Header.Get`: first value for the (canonical) key, or `""`.
Keys are assumed stored in canonical MIME form, as `Header.Set` produces. -/
def hGet (hh : List (String × String)) (k : String) : String :=
  match hh.find? (fun kv => kv.1 == k) with
  | some kv => kv.2
  | none => ""

/-- `http.Header.Del`: remove the key. -/
def hDel (hh : List (String × String)) (k : String) : List (String × String) :=
  hh.filter (fun kv => !(kv.1 == k))

/-- Decimal digits of a run of characters, `none` if empty or non-digit. -/
def parseDigits (cs : Bytes) : Option Nat :=
  match cs with
  | [] => none
  | _ =>
    cs.foldl
      (fun acc c =>
        acc.bind fun a =>
          if '0' ≤ c ∧ c ≤ '9' then some (10 * a + (c.toNat - 48)) else none)
      (some 0)

/-- `strconv.ParseInt(s, 10, 64)`: optional sign, decimal digits, 64-bit
range check; `none` models `err != nil` (including range errors). -/
def parseInt64 (s : String) : Option Int :=
  match s.data with
  | [] => none
  | '+' :: rest =>
    (parseDigits rest).bind fun n =>
      if n ≤ 2 ^ 63 - 1 then some (n : Int) else none
  | '-' :: rest =>
    (parseDigits rest).bind fun n =>
      if n ≤ 2 ^ 63 then some (-(n : Int)) else none
  | cs =>
    (parseDigits cs).bind fun n =>
      if n ≤ 2 ^ 63 - 1 then some (n : Int) else none

/-- One lowercase hex digit, as `fmt` prints with `%x`. -/
def hexDigit (n : Nat) : Char :=
  if n < 10 then Char.ofNat (48 + n) else Char.ofNat (87 + n)

/-- Hex digits, most significant first, by fuel-bounded recursion
(structural, so that concrete runs evaluate inside the kernel); the
fuel never runs out because `n / 16 < n`. -/
def hexStrAux : Nat → Nat → Bytes
  | 0, n => [hexDigit (n % 16)]
  | fuel + 1, n =>
    if n < 16 then [hexDigit n] else hexStrAux fuel (n / 16) ++ [hexDigit (n % 16)]

/-- `fmt.Sprintf("%x", n)`: lowercase hex, no padding. -/
def hexStr (n : Nat) : Bytes := hexStrAux n n

lemma hexStrAux_congr : ∀ (f1 f2 n : Nat), n ≤ f1 → n ≤ f2 → hexStrAux f1 n = hexStrAux f2 n := by
  intro f1
  induction f1 with
  | zero =>
    intro f2 n h1 h2
    interval_cases n
    cases f2 with
    | zero => rfl
    | succ f2 => simp [hexStrAux]
  | succ f1 ih =>
    intro f2 n h1 h2
    cases f2 with
    | zero =>
      interval_cases n
      simp [hexStrAux]
    | succ f2 =>
      show (if n < 16 then [hexDigit n] else hexStrAux f1 (n / 16) ++ [hexDigit (n % 16)]) =
        (if n < 16 then [hexDigit n] else hexStrAux f2 (n / 16) ++ [hexDigit (n % 16)])
      split
      · rfl
      · rw [ih f2 (n / 16) (by omega) (by omega)]

/-- The usual unfolding of `hexStr`. -/
lemma hexStr_unfold (n : Nat) :
    hexStr n = if n < 16 then [hexDigit n] else hexStr (n / 16) ++ [hexDigit (n % 16)] := by
  unfold hexStr
  cases n with
  | zero => simp [hexStrAux]
  | succ m =>
    show (if m + 1 < 16 then [hexDigit (m + 1)]
        else hexStrAux m ((m + 1) / 16) ++ [hexDigit ((m + 1) % 16)]) = _
    split
    · rfl
    · rw [hexStrAux_congr m ((m + 1) / 16) ((m + 1) / 16) (by omega) (le_refl _)]

/-- `strconv.FormatInt(int64(n), 10)` for non-negative `n`. -/
def natDec (n : Nat) : String := toString n

/-- Go `%03d`: zero-pad to total width 3 (sign included). -/
def fmt03d (n : Int) : String :=
  let core := toString n.natAbs
  let sign := if n < 0 then "-" else ""
  sign ++ String.mk (List.replicate (3 - (sign.length + core.length)) '0') ++ core

/-- The status line `fmt.Sprintf("HTTP/1.1 %03d %s\r\n", status, http.StatusText(status))`. -/
def statusLineStr (ext : GoEnv) (status : Int) : Bytes :=
  str "HTTP/1.1 " ++ str (fmt03d status) ++ str " " ++ str (ext.statusText status) ++ crlfB

/-- `header.Write`: `Date: <date>\r\n` when the date is set, then
Content-Length, Content-Type, Connection, Transfer-Encoding in that
order, each only when non-empty. -/
def headerWriteBytes (h : SetHeader) : Bytes :=
  (if h.date ≠ [] then str "Date: " ++ h.date ++ crlfB else []) ++
  (if h.contentLength ≠ "" then str "Content-Length" ++ colonSpaceB ++ str h.contentLength ++ crlfB else []) ++
  (if h.contentType ≠ "" then str "Content-Type" ++ colonSpaceB ++ str h.contentType ++ crlfB else []) ++
  (if h.connection ≠ "" then str "Connection" ++ colonSpaceB ++ str h.connection ++ crlfB else []) ++
  (if h.transferEncoding ≠ "" then str "Transfer-Encoding" ++ colonSpaceB ++ str h.transferEncoding ++ crlfB else [])

/-- The pass-through loop of `chunkWriter.writeHeader`: every handler
header as `Name: Value\r\n`, skipping the five reserved names and empty
names or values.  The loop body reads the value through `Get(key)`. -/
def passThrough (hh : List (String × String)) : Bytes :=
  (hh.map (fun kv =>
    let key := kv.1
    let value := hGet hh key
    if key == "Date" ∨ key == "Content-Length" ∨ key == "Transfer-Encoding" ∨
        key == "Content-Type" ∨ key == "Connection" then []
    else if key ≠ "" ∧ value ≠ "" then str key ++ colonSpaceB ++ str value ++ crlfB
    else [])).flatten

/-- `strings.Contains`. -/
def containsSub : Bytes → Bytes → Bool
  | [], n => n.isEmpty
  | c :: t, n => n.isPrefixOf (c :: t) || containsSub t n

/-- The framing decision of `chunkWriter.writeHeader`, applied to the
date-stamped header set `sh0`: an accepted Content-Length forces
chunking off; explicit chunking stays on; a streaming (`noCache`)
response turns chunking on, merging "chunked" into any existing
Transfer-Encoding value; otherwise a finished handler with a non-empty
sample fixes the Content-Length from the sample.  Returns the updated
header set, the `chunking` flag and the new declared-length field. -/
def frameHeader (s : Resp) (sh0 : SetHeader) (p : Bytes) : SetHeader × Bool × Option Nat :=
  if sh0.contentLength ≠ "" then (sh0, false, s.contentLength)
  else if s.cw.chunking then (sh0, true, s.contentLength)
  else if s.noCache then
    let te :=
      if sh0.transferEncoding ≠ "" then
        if containsSub (str sh0.transferEncoding) (str "chunked") then sh0.transferEncoding
        else sh0.transferEncoding ++ ", chunked"
      else "chunked"
    ({ sh0 with transferEncoding := te }, true, s.contentLength)
  else if s.handlerDone ∧ p ≠ [] then
    ({ sh0 with contentLength := natDec p.length }, false, some p.length)
  else (sh0, false, s.contentLength)

/-- The decision part of `chunkWriter.writeHeader`: stamp the date,
decide framing (`frameHeader`), decide Content-Type and Connection. -/
def decideHeader (ext : GoEnv) (s : Resp) (p : Bytes) : SetHeader × Bool × Option Nat :=
  let framed := frameHeader s { s.setHeader with date := ext.dateStr } p
  let sh1 := framed.1
  let ck := framed.2.1
  let ct := hGet s.handlerHeader "Content-Type"
  let sh2 :=
    if ct ≠ "" then { sh1 with contentType := ct }
    else if ¬ ck ∧ p ≠ [] then { sh1 with contentType := ext.detectContentType (p.take 512) }
    else sh1
  let co := hGet s.handlerHeader "Connection"
  let sh3 := if co ≠ "" then { sh2 with connection := co } else sh2
  (sh3, ck, framed.2.2)

/-- `chunkWriter.writeHeader`: guarded one-shot header finalization and
emission — status line, the fixed header set, the pass-through headers,
one blank line. -/
def writeHeader (ext : GoEnv) (s : Resp) (p : Bytes) : Resp :=
  if s.cw.wroteHeader then s
  else
    let d := decideHeader ext s p
    { s with
      contentLength := d.2.2
      setHeader := d.1
      cw := { wroteHeader := true, chunking := d.2.1 }
      wire := s.wire ++ statusLineStr ext s.status ++ headerWriteBytes d.1 ++
        passThrough s.handlerHeader ++ crlfB }

/-- `chunkWriter.Write`: emit the header on first use, eat the payload
for HEAD requests, otherwise frame the payload when chunking.  (The
returned `n` is `len p` in every non-error case; the model's `rw` never
fails, so the `conn.Close` error paths are unreachable.) -/
def cwWrite (ext : GoEnv) (s : Resp) (p : Bytes) : Resp :=
  let s := writeHeader ext s p
  if s.method == "HEAD" then s
  else if s.cw.chunking then
    { s with wire := s.wire ++ hexStr p.length ++ crlfB ++ p ++ crlfB }
  else
    { s with wire := s.wire ++ p }

/-- `chunkWriter.flush`: force the header out; `rw.Flush` is the identity
on the wire. -/
def cwFlush (ext : GoEnv) (s : Resp) : Resp :=
  writeHeader ext s []

/-- `chunkWriter.close`: force the header out; when chunking, emit the
zero-size chunk and the final blank line. -/
def cwClose (ext : GoEnv) (s : Resp) : Resp :=
  let s := writeHeader ext s []
  if s.cw.chunking then { s with wire := s.wire ++ str "0" ++ crlfB ++ crlfB } else s

/-- `bufio.Writer.Flush` of the middle writer `w.w`. -/
def bwFlush (ext : GoEnv) (s : Resp) : Resp :=
  if s.bw = [] then s else cwWrite ext { s with bw := [] } s.bw

/-- `bufio.Writer.Write` of the middle writer `w.w` (buffer size
`s.bufSize`, underlying writer = the chunk writer): append when it
fits; a large write on an empty buffer goes straight through; otherwise
fill the buffer, flush it, and place or pass the rest. -/
def bwWrite (ext : GoEnv) (s : Resp) (p : Bytes) : Resp :=
  if p.length ≤ s.bufSize - s.bw.length then { s with bw := s.bw ++ p }
  else if s.bw.length = 0 then cwWrite ext s p
  else
    let k := s.bufSize - s.bw.length
    let s' := cwWrite ext { s with bw := [] } (s.bw ++ p.take k)
    let rest := p.drop k
    if rest.length ≤ s.bufSize then { s' with bw := rest } else cwWrite ext s' rest

/-- `bodyAllowedForStatus` (RFC 7230 §3.3). -/
def bodyAllowedForStatus (status : Int) : Bool :=
  if 100 ≤ status ∧ status ≤ 199 then false
  else if status = 204 then false
  else if status = 304 then false
  else true

/-- `checkWriteHeaderCode`: `true` iff the code does not trip the
`invalid WriteHeader code` panic. -/
def checkWriteHeaderCode (code : Int) : Bool := ¬ (code < 100 ∨ code > 999)

/-- The body of `Response.WriteHeader` past its guards and the code
check: record the status, accept a valid non-negative declared
Content-Length (deleting an invalid one), else lock explicit chunking. -/
def writeHeaderCore (s : Resp) (code : Int) : Resp :=
  let s := { s with wroteHeader := true, status := code }
  let cl := hGet s.handlerHeader "Content-Length"
  if cl ≠ "" then
    match parseInt64 cl with
    | some v =>
      if 0 ≤ v then
        { s with contentLength := some v.toNat
                 setHeader := { s.setHeader with contentLength := cl } }
      else { s with handlerHeader := hDel s.handlerHeader "Content-Length" }
    | none => { s with handlerHeader := hDel s.handlerHeader "Content-Length" }
  else if hGet s.handlerHeader "Transfer-Encoding" == "chunked" then
    { s with cw := { s.cw with chunking := true }
             setHeader := { s.setHeader with transferEncoding := "chunked" } }
  else s

/-- `Response.WriteHeader`; `none` models the
`invalid WriteHeader code` panic. -/
def respWriteHeader (s : Resp) (code : Int) : Option Resp :=
  if s.hijacked then some s
  else if s.wroteHeader then some s
  else if ¬ checkWriteHeaderCode code then none
  else some (writeHeaderCore s code)

/-- `copy(buffer[off:off+len d], d)` on a fixed-size buffer (the caller's
guard ensures `off + d.length ≤ buffer.length`). -/
def listCopyAt (buf : Bytes) (off : Nat) (d : Bytes) : Bytes :=
  buf.take off ++ d ++ buf.drop (off + d.length)

/-- The write errors of the package: `http.ErrHijacked`,
`http.ErrBodyNotAllowed`, `http.ErrContentLength`. -/
inductive WErr where
  | hijacked
  | bodyNotAllowed
  | contentLengthExceeded
deriving DecidableEq, Repr

/-- `Response.Write`: result is `((n, err), new state)`.  Note the Go
source returns a naked `(0, nil)` on the buffered fast path. -/
def respWrite (ext : GoEnv) (s : Resp) (data : Bytes) : (Nat × Option WErr) × Resp :=
  if s.hijacked then ((0, some .hijacked), s)
  else
    let s := if ¬ s.wroteHeader then writeHeaderCore s 200 else s
    if data = [] then ((0, none), s)
    else if ¬ bodyAllowedForStatus s.status then ((0, some .bodyNotAllowed), s)
    else if ¬ s.cw.chunking then
      let offset := s.written
      let s := { s with written := s.written + data.length }
      if (match s.contentLength with
          | some l => decide (l < s.written)
          | none => false) then
        ((0, some .contentLengthExceeded), s)
      else if ¬ s.noCache ∧ s.written ≤ s.bufSize then
        ((0, none), { s with buffer := listCopyAt s.buffer offset data })
      else
        let s :=
          if ¬ s.noCache then
            let s := { s with noCache := true }
            if 0 < offset then bwWrite ext s (s.buffer.take offset) else s
          else s
        ((data.length, none), bwWrite ext s data)
    else ((data.length, none), bwWrite ext s data)

/-- `Response.Flush`: drain the fixed buffer when not streaming, flush
the middle writer, force the header out. -/
def respFlush (ext : GoEnv) (s : Resp) : Resp :=
  if s.hijacked then s
  else
    let s := if ¬ s.wroteHeader then writeHeaderCore s 200 else s
    let s :=
      if ¬ s.noCache then
        if 0 < s.written then { bwWrite ext s (s.buffer.take s.written) with written := 0 }
        else s
      else s
    cwFlush ext (bwFlush ext s)

/-- `Response.Hijack` (the connection and reader/writer returned to the
caller are outside the model). -/
def respHijack (ext : GoEnv) (s : Resp) : Resp :=
  let s := { s with hijacked := true }
  if s.wroteHeader then cwFlush ext s else s

/-- `Response.FinishRequest`: mark the handler done, final flush, flush
and release the middle writer, close chunk framing.  The request-body
close and the pooling steps do not touch the wire. -/
def finishRequest (ext : GoEnv) (s : Resp) : Resp :=
  let s := { s with handlerDone := true }
  let s := respFlush ext s
  let s := bwFlush ext s
  cwClose ext s

/-- `NewResponseSize`: fresh per-request state; `contentLength := none`
models the `-1` sentinel, the pool-provided buffer arrives with
arbitrary former content `initBuf` (length = `size`). -/
def newResponse (method : String) (size : Nat) (initBuf : Bytes) : Resp :=
  { method := method, wroteHeader := false, status := 0, contentLength := none,
    written := 0, noCache := false, hijacked := false, handlerDone := false,
    bufSize := size, buffer := initBuf, handlerHeader := [], setHeader := {},
    cw := {}, bw := [], wire := [] }

/-- A handler that only calls `Write`: fold the writes over the state. -/
def runWrites (ext : GoEnv) (s : Resp) (ws : List Bytes) : Resp :=
  ws.foldl (fun a d => (respWrite ext a d).2) s

/-- Full exchange for a handler that sets headers `hh`, performs the
writes `ws`, and is then finished by the server. -/
def serveAndFinish (ext : GoEnv) (method : String) (size : Nat) (initBuf : Bytes)
    (hh : List (String × String)) (ws : List Bytes) : Resp :=
  finishRequest ext (runWrites ext { newResponse method size initBuf with handlerHeader := hh } ws)

/-! ## Basic structural lemmas -/

/-- Fields no chunk-writer-level operation ever changes. -/
def sameCore (s t : Resp) : Prop :=
  t.method = s.method ∧ t.wroteHeader = s.wroteHeader ∧ t.status = s.status ∧
  t.written = s.written ∧ t.noCache = s.noCache ∧ t.hijacked = s.hijacked ∧
  t.handlerDone = s.handlerDone ∧ t.bufSize = s.bufSize ∧ t.buffer = s.buffer ∧
  t.handlerHeader = s.handlerHeader

lemma sameCore_refl (s : Resp) : sameCore s s := by
  simp [sameCore]

lemma sameCore_trans {s t u : Resp} (h1 : sameCore s t) (h2 : sameCore t u) :
    sameCore s u := by
  unfold sameCore at *
  obtain ⟨a1, a2, a3, a4, a5, a6, a7, a8, a9, a10⟩ := h1
  obtain ⟨b1, b2, b3, b4, b5, b6, b7, b8, b9, b10⟩ := h2
  exact ⟨b1.trans a1, b2.trans a2, b3.trans a3, b4.trans a4, b5.trans a5,
    b6.trans a6, b7.trans a7, b8.trans a8, b9.trans a9, b10.trans a10⟩

lemma writeHeader_sameCore (ext : GoEnv) (s : Resp) (p : Bytes) :
    sameCore s (writeHeader ext s p) ∧ (writeHeader ext s p).bw = s.bw := by
  unfold writeHeader
  split <;> simp [sameCore]

lemma cwWrite_sameCore (ext : GoEnv) (s : Resp) (p : Bytes) :
    sameCore s (cwWrite ext s p) ∧ (cwWrite ext s p).bw = s.bw := by
  obtain ⟨⟨a1, a2, a3, a4, a5, a6, a7, a8, a9, a10⟩, ab⟩ := writeHeader_sameCore ext s p
  unfold cwWrite
  dsimp only
  split
  · exact ⟨⟨a1, a2, a3, a4, a5, a6, a7, a8, a9, a10⟩, ab⟩
  · split
    · exact ⟨⟨a1, a2, a3, a4, a5, a6, a7, a8, a9, a10⟩, ab⟩
    · exact ⟨⟨a1, a2, a3, a4, a5, a6, a7, a8, a9, a10⟩, ab⟩

lemma cwFlush_sameCore (ext : GoEnv) (s : Resp) :
    sameCore s (cwFlush ext s) ∧ (cwFlush ext s).bw = s.bw :=
  writeHeader_sameCore ext s []

lemma cwClose_sameCore (ext : GoEnv) (s : Resp) :
    sameCore s (cwClose ext s) ∧ (cwClose ext s).bw = s.bw := by
  obtain ⟨⟨a1, a2, a3, a4, a5, a6, a7, a8, a9, a10⟩, ab⟩ := writeHeader_sameCore ext s []
  unfold cwClose
  dsimp only
  split
  · exact ⟨⟨a1, a2, a3, a4, a5, a6, a7, a8, a9, a10⟩, ab⟩
  · exact ⟨⟨a1, a2, a3, a4, a5, a6, a7, a8, a9, a10⟩, ab⟩

lemma bwWrite_sameCore (ext : GoEnv) (s : Resp) (p : Bytes) :
    sameCore s (bwWrite ext s p) := by
  unfold bwWrite
  dsimp only
  split
  · simp [sameCore]
  · split
    · exact (cwWrite_sameCore ext s p).1
    · have h1 := (cwWrite_sameCore ext { s with bw := [] }
        (s.bw ++ p.take (s.bufSize - s.bw.length))).1
      have h0 : sameCore s { s with bw := ([] : Bytes) } := by simp [sameCore]
      have h01 := sameCore_trans h0 h1
      obtain ⟨b1, b2, b3, b4, b5, b6, b7, b8, b9, b10⟩ := h01
      split
      · exact ⟨b1, b2, b3, b4, b5, b6, b7, b8, b9, b10⟩
      · exact sameCore_trans ⟨b1, b2, b3, b4, b5, b6, b7, b8, b9, b10⟩
          (cwWrite_sameCore ext _ (p.drop (s.bufSize - s.bw.length))).1

lemma bwFlush_sameCore (ext : GoEnv) (s : Resp) :
    sameCore s (bwFlush ext s) := by
  unfold bwFlush
  split
  · exact sameCore_refl s
  · have h0 : sameCore s { s with bw := ([] : Bytes) } := by simp [sameCore]
    exact sameCore_trans h0 (cwWrite_sameCore ext { s with bw := [] } s.bw).1

/-- `writeHeaderCore` leaves the wire and the buffering state alone. -/
lemma writeHeaderCore_pres (s : Resp) (code : Int) :
    (writeHeaderCore s code).method = s.method ∧
    (writeHeaderCore s code).wire = s.wire ∧
    (writeHeaderCore s code).hijacked = s.hijacked ∧
    (writeHeaderCore s code).noCache = s.noCache ∧
    (writeHeaderCore s code).written = s.written ∧
    (writeHeaderCore s code).buffer = s.buffer ∧
    (writeHeaderCore s code).bw = s.bw ∧
    (writeHeaderCore s code).bufSize = s.bufSize ∧
    (writeHeaderCore s code).handlerDone = s.handlerDone := by
  unfold writeHeaderCore
  dsimp only
  (repeat' split) <;> simp

/-- `hGet` after `hDel` of the same key yields the empty string. -/
lemma hGet_hDel (hh : List (String × String)) (k : String) :
    hGet (hDel hh k) k = "" := by
  unfold hGet hDel
  have : (hh.filter (fun kv => !(kv.1 == k))).find? (fun kv => kv.1 == k) = none := by
    rw [List.find?_eq_none]
    intro x hx
    have := List.of_mem_filter hx
    simpa using this
  rw [this]

lemma sameCore_hijacked {s t : Resp} (h : sameCore s t) : t.hijacked = s.hijacked :=
  h.2.2.2.2.2.1

lemma checkWriteHeaderCode_iff (code : Int) :
    checkWriteHeaderCode code = true ↔ 100 ≤ code ∧ code ≤ 999 := by
  unfold checkWriteHeaderCode
  simp

lemma respWrite_pres_hijacked (ext : GoEnv) (s : Resp) (d : Bytes) :
    ((respWrite ext s d).2).hijacked = s.hijacked := by
  unfold respWrite
  dsimp only
  split
  · rfl
  · have h1 : (if ¬s.wroteHeader = true then writeHeaderCore s 200 else s).hijacked
        = s.hijacked := by
      split
      · exact (writeHeaderCore_pres s 200).2.2.1
      · rfl
    (repeat' split) <;>
      simp_all [sameCore_hijacked (bwWrite_sameCore ext _ _)]

lemma respFlush_pres_hijacked (ext : GoEnv) (s : Resp) :
    (respFlush ext s).hijacked = s.hijacked := by
  unfold respFlush
  dsimp only
  split
  · rfl
  · have h1 : (if ¬s.wroteHeader = true then writeHeaderCore s 200 else s).hijacked
        = s.hijacked := by
      split
      · exact (writeHeaderCore_pres s 200).2.2.1
      · rfl
    (repeat' split) <;>
      simp_all [sameCore_hijacked (cwFlush_sameCore ext _).1,
        sameCore_hijacked (bwFlush_sameCore ext _),
        sameCore_hijacked (bwWrite_sameCore ext _ _)]

/-- A fixed environment for witnesses: an opaque date value and simple
status-text / content-sniffing functions. -/
def extW : GoEnv :=
  { dateStr := str "D"
    statusText := fun c => if c = 200 then "OK" else "No"
    detectContentType := fun _ => defaultContentType }

def bufW : Bytes := List.replicate 8 'z'

/-- **C4.** On a response with an accepted declared Content-Length `l`, a
`Write` whose attempted length pushes the cumulative counter past `l`
returns `(0, ErrContentLength)`, leaves the wire, the middle writer and
the fixed buffer untouched (none of its bytes are emitted), yet the
counter still advances by the attempted length. -/
theorem C4_content_length_exceeded (ext : GoEnv) (s : Resp) (d : Bytes) (l : Nat)
    (hhj : s.hijacked = false) (hwr : s.wroteHeader = true)
    (hck : s.cw.chunking = false) (hcl : s.contentLength = some l)
    (hba : bodyAllowedForStatus s.status = true) (hne : d ≠ [])
    (hex : l < s.written + d.length) :
    respWrite ext s d =
      ((0, some WErr.contentLengthExceeded), { s with written := s.written + d.length }) := by
  unfold respWrite
  simp [hhj, hwr, hck, hcl, hba, hne, hex]

/-- State with an accepted `Content-Length: 3` used by the C4 witness. -/
def sC4 : Resp :=
  writeHeaderCore { newResponse "GET" 8 bufW with handlerHeader := [("Content-Length", "3")] } 200

theorem C4_content_length_exceeded_witness :
    sC4.contentLength = some 3 ∧
    respWrite extW sC4 (str "abcdef") =
      ((0, some WErr.contentLengthExceeded), { sC4 with written := sC4.written + (str "abcdef").length }) :=
  ⟨by decide, C4_content_length_exceeded extW sC4 (str "abcdef") 3 (by decide) (by decide)
    (by decide) (by decide) (by decide) (by decide) (by decide)⟩

/-- **C9.** `WriteHeader` on a call that reaches the code check (not
hijacked, first call): any code outside `[100, 999]` trips the
`invalid WriteHeader code` panic (`none`), never an error value; any
code inside the range does not panic, and the call leaves the wire
untouched (nothing is emitted before — or by — the check). -/
theorem C9_code_check (s : Resp) (code : Int)
    (hhj : s.hijacked = false) (hwr : s.wroteHeader = false) :
    ((code < 100 ∨ 999 < code) → respWriteHeader s code = none) ∧
    (100 ≤ code ∧ code ≤ 999 →
      ∃ t, respWriteHeader s code = some t ∧ t.wire = s.wire) := by
  constructor
  · intro h
    have hc : ¬ checkWriteHeaderCode code = true := by
      rw [checkWriteHeaderCode_iff]; omega
    unfold respWriteHeader
    simp [hhj, hwr, hc]
  · intro h
    have hc : checkWriteHeaderCode code = true := by
      rw [checkWriteHeaderCode_iff]; omega
    unfold respWriteHeader
    simp [hhj, hwr, hc]
    exact (writeHeaderCore_pres s code).2.1

/-- Fresh response used by several witnesses. -/
def sFresh : Resp := newResponse "GET" 8 bufW

theorem C9_code_check_witness :
    respWriteHeader sFresh 0 = none ∧
    ∃ t, respWriteHeader sFresh 200 = some t ∧ t.wire = sFresh.wire :=
  ⟨(C9_code_check sFresh 0 rfl rfl).1 (by omega),
   (C9_code_check sFresh 200 rfl rfl).2 (by omega)⟩

/-- **C10.** On the first accepted `WriteHeader`, a handler-set
Content-Length that does not parse as a non-negative 64-bit integer is
silently deleted from the handler header collection (visible through
`Header()`), and the declared length stays unknown (the resulting
state's `contentLength` is still the one of `s`, i.e. `none`). -/
theorem C10_invalid_content_length_deleted (s : Resp) (code : Int) (v : String)
    (hhj : s.hijacked = false) (hwr : s.wroteHeader = false)
    (hv : hGet s.handlerHeader "Content-Length" = v) (hne : v ≠ "")
    (hbad : parseInt64 v = none ∨ ∃ x, parseInt64 v = some x ∧ x < 0)
    (hcode : checkWriteHeaderCode code = true) :
    respWriteHeader s code = some { s with
      wroteHeader := true
      status := code
      handlerHeader := hDel s.handlerHeader "Content-Length" } ∧
    hGet (hDel s.handlerHeader "Content-Length") "Content-Length" = "" := by
  refine ⟨?_, hGet_hDel _ _⟩
  unfold respWriteHeader
  simp [hhj, hwr, hcode]
  unfold writeHeaderCore
  dsimp only
  rw [hv]
  rcases hbad with hb | ⟨x, hx, hxneg⟩
  · simp [hne, hb, hhj]
  · have hxle : ¬ (0 ≤ x) := by omega
    simp [hne, hx, hxle, hhj]

/-- State whose handler set the unparsable `Content-Length: abc`,
used by the C10 witness. -/
def sC10 : Resp :=
  { newResponse "GET" 8 bufW with handlerHeader := [("Content-Length", "abc")] }

theorem C10_invalid_content_length_deleted_witness :
    parseInt64 "abc" = none ∧
    respWriteHeader sC10 200 = some { sC10 with
      wroteHeader := true
      status := 200
      handlerHeader := hDel sC10.handlerHeader "Content-Length" } ∧
    hGet (hDel sC10.handlerHeader "Content-Length") "Content-Length" = "" :=
  ⟨by decide,
   (C10_invalid_content_length_deleted sC10 200 "abc" rfl rfl (by decide) (by decide)
      (Or.inl (by decide)) (by decide)).1,
   (C10_invalid_content_length_deleted sC10 200 "abc" rfl rfl (by decide) (by decide)
      (Or.inl (by decide)) (by decide)).2⟩

/-- **C7.** `Hijack` sets the `hijacked` flag; the flag is never reset
by `Write`, `WriteHeader` or `Flush` (so it transitions false→true
exactly once); and once it is set, `Write` returns `ErrHijacked` with
`n = 0` and an unchanged state, while `WriteHeader` and `Flush` are
no-ops returning the state unchanged (no bytes are emitted). -/
theorem C7_hijack_disables (ext : GoEnv) :
    (∀ s : Resp, (respHijack ext s).hijacked = true) ∧
    (∀ (s : Resp) (d : Bytes), s.hijacked = true →
      respWrite ext s d = ((0, some WErr.hijacked), s)) ∧
    (∀ (s : Resp) (code : Int), s.hijacked = true → respWriteHeader s code = some s) ∧
    (∀ s : Resp, s.hijacked = true → respFlush ext s = s) ∧
    (∀ (s : Resp) (d : Bytes), ((respWrite ext s d).2).hijacked = s.hijacked) ∧
    (∀ (s t : Resp) (code : Int), respWriteHeader s code = some t →
      t.hijacked = s.hijacked) ∧
    (∀ s : Resp, (respFlush ext s).hijacked = s.hijacked) := by
  refine ⟨?_, ?_, ?_, ?_, ?_, ?_, ?_⟩
  · intro s
    unfold respHijack
    dsimp only
    split
    · rw [sameCore_hijacked (cwFlush_sameCore ext _).1]
    · rfl
  · intro s d h
    unfold respWrite
    simp [h]
  · intro s code h
    unfold respWriteHeader
    simp [h]
  · intro s h
    unfold respFlush
    simp [h]
  · exact respWrite_pres_hijacked ext
  · intro s t code h
    unfold respWriteHeader at h
    by_cases h1 : s.hijacked = true
    · simp [h1] at h
      rw [← h]
    · by_cases h2 : s.wroteHeader = true
      · simp [h1, h2] at h
        rw [← h]
      · by_cases h3 : checkWriteHeaderCode code = true
        · simp [h1, h2, h3] at h
          rw [← h, (writeHeaderCore_pres s code).2.2.1]
        · simp [h1, h2, h3] at h
  · exact respFlush_pres_hijacked ext

/-- Hijacked state used by the C7 witness. -/
def sHij : Resp := { newResponse "GET" 8 bufW with hijacked := true }

theorem C7_hijack_disables_witness :
    sHij.hijacked = true ∧
    respWrite extW sHij (str "a") = ((0, some WErr.hijacked), sHij) ∧
    respWriteHeader sHij 404 = some sHij ∧
    respFlush extW sHij = sHij :=
  ⟨rfl, (C7_hijack_disables extW).2.1 sHij (str "a") rfl,
   (C7_hijack_disables extW).2.2.1 sHij 404 rfl,
   (C7_hijack_disables extW).2.2.2.1 sHij rfl⟩

/-! ## Header emission: one-shot guard and layout -/

lemma writeHeader_skip (ext : GoEnv) (s : Resp) (p : Bytes)
    (h : s.cw.wroteHeader = true) : writeHeader ext s p = s := by
  unfold writeHeader
  simp [h]

lemma writeHeader_sets (ext : GoEnv) (s : Resp) (p : Bytes) :
    (writeHeader ext s p).cw.wroteHeader = true := by
  unfold writeHeader
  dsimp only
  split
  · assumption
  · rfl

lemma cwWrite_sets (ext : GoEnv) (s : Resp) (p : Bytes) :
    (cwWrite ext s p).cw.wroteHeader = true := by
  have h := writeHeader_sets ext s p
  unfold cwWrite
  dsimp only
  split
  · exact h
  · split <;> exact h

lemma cwFlush_sets (ext : GoEnv) (s : Resp) :
    (cwFlush ext s).cw.wroteHeader = true :=
  writeHeader_sets ext s []

lemma cwClose_sets (ext : GoEnv) (s : Resp) :
    (cwClose ext s).cw.wroteHeader = true := by
  have h := writeHeader_sets ext s []
  unfold cwClose
  dsimp only
  split <;> exact h

lemma writeHeader_setHeader_eq (ext : GoEnv) (s : Resp) (p : Bytes)
    (h : s.cw.wroteHeader = false) :
    (writeHeader ext s p).setHeader = (decideHeader ext s p).1 := by
  unfold writeHeader
  simp [h]

lemma writeHeader_chunking_eq (ext : GoEnv) (s : Resp) (p : Bytes)
    (h : s.cw.wroteHeader = false) :
    (writeHeader ext s p).cw.chunking = (decideHeader ext s p).2.1 := by
  unfold writeHeader
  simp [h]

lemma writeHeader_wire_layout (ext : GoEnv) (s : Resp) (p : Bytes)
    (h : s.cw.wroteHeader = false) :
    (writeHeader ext s p).wire =
      s.wire ++ statusLineStr ext s.status ++
        headerWriteBytes (writeHeader ext s p).setHeader ++
        passThrough s.handlerHeader ++ crlfB := by
  unfold writeHeader
  simp [h]

/-- **C5.** The header section is emitted at most once — `writeHeader` is
a no-op once `cw.wroteHeader` holds, and each of chunk-writer write,
flush and close establishes it (so the first of them emits it) — and
when it is emitted its bytes are exactly the status line, then the fixed
header set in the order Date, Content-Length, Content-Type, Connection,
Transfer-Encoding with empty fields omitted (`headerWriteBytes`), then
every remaining handler header skipping empty names, empty values and
the five reserved names (`passThrough`), then one blank line. -/
theorem C5_header_once_layout :
    (∀ (ext : GoEnv) (s : Resp) (p : Bytes), s.cw.wroteHeader = true →
      writeHeader ext s p = s) ∧
    (∀ (ext : GoEnv) (s : Resp) (p : Bytes), (writeHeader ext s p).cw.wroteHeader = true) ∧
    (∀ (ext : GoEnv) (s : Resp) (p : Bytes), (cwWrite ext s p).cw.wroteHeader = true) ∧
    (∀ (ext : GoEnv) (s : Resp), (cwFlush ext s).cw.wroteHeader = true) ∧
    (∀ (ext : GoEnv) (s : Resp), (cwClose ext s).cw.wroteHeader = true) ∧
    (∀ (ext : GoEnv) (s : Resp), s.cw.wroteHeader = true → cwFlush ext s = s) ∧
    (∀ (ext : GoEnv) (s : Resp) (p : Bytes), s.cw.wroteHeader = false →
      (writeHeader ext s p).wire =
        s.wire ++ statusLineStr ext s.status ++
          headerWriteBytes (writeHeader ext s p).setHeader ++
          passThrough s.handlerHeader ++ crlfB) :=
  ⟨writeHeader_skip, writeHeader_sets, cwWrite_sets, cwFlush_sets, cwClose_sets,
   fun ext s h => writeHeader_skip ext s [] h, writeHeader_wire_layout⟩

/-- Already-emitted state used by the C5 witness. -/
def sEmitted : Resp := { newResponse "GET" 8 bufW with cw := { wroteHeader := true, chunking := false } }

theorem C5_header_once_layout_witness :
    writeHeader extW sEmitted (str "x") = sEmitted ∧
    cwFlush extW sEmitted = sEmitted ∧
    (writeHeader extW sFresh (str "x")).wire =
      sFresh.wire ++ statusLineStr extW sFresh.status ++
        headerWriteBytes (writeHeader extW sFresh (str "x")).setHeader ++
        passThrough sFresh.handlerHeader ++ crlfB :=
  ⟨C5_header_once_layout.1 extW sEmitted (str "x") rfl,
   C5_header_once_layout.2.2.2.2.2.1 extW sEmitted rfl,
   C5_header_once_layout.2.2.2.2.2.2 extW sFresh (str "x") rfl⟩

/-! ## Content-Type decision -/

/-- The Content-Type chosen by the finalizer: explicit handler value
wins; else sniffed from at most 512 sample bytes when not chunking and a
sample exists; else left as it was (initially empty). -/
lemma frameHeader_contentType (s : Resp) (sh0 : SetHeader) (p : Bytes) :
    (frameHeader s sh0 p).1.contentType = sh0.contentType := by
  unfold frameHeader
  dsimp only
  (repeat' split) <;> rfl

lemma decideHeader_contentType (ext : GoEnv) (s : Resp) (p : Bytes) :
    (decideHeader ext s p).1.contentType =
      (if hGet s.handlerHeader "Content-Type" ≠ "" then hGet s.handlerHeader "Content-Type"
       else if (decideHeader ext s p).2.1 = false ∧ p ≠ [] then
         ext.detectContentType (p.take 512)
       else s.setHeader.contentType) := by
  have hf := frameHeader_contentType s { s.setHeader with date := ext.dateStr } p
  unfold decideHeader
  dsimp only
  by_cases hct : hGet s.handlerHeader "Content-Type" ≠ ""
  · simp only [if_pos hct]
    split <;> rfl
  · by_cases hck : (frameHeader s { s.setHeader with date := ext.dateStr } p).2.1 = true
    · simp only [if_neg hct, hck]
      split <;> simp_all
    · by_cases hp : p = []
      · simp only [if_neg hct, hp]
        split <;> simp_all
      · simp only [if_neg hct]
        split <;> simp_all

/-- **C8 (amended).** During header finalization the Content-Type is
decided as: an explicit handler-set value wins; otherwise, if chunking
is off and a non-empty body sample exists, the type is sniffed from up
to the first 512 sample bytes; otherwise it is left unset by the
finalizer — and it starts unset: the constructor `NewResponseSize`
applies no default (the `defaultContentType` constant is unused by the
current code). -/
theorem C8_content_type_decision :
    (∀ (ext : GoEnv) (s : Resp) (p : Bytes), s.cw.wroteHeader = false →
      hGet s.handlerHeader "Content-Type" ≠ "" →
      (writeHeader ext s p).setHeader.contentType = hGet s.handlerHeader "Content-Type") ∧
    (∀ (ext : GoEnv) (s : Resp) (p : Bytes), s.cw.wroteHeader = false →
      hGet s.handlerHeader "Content-Type" = "" →
      (writeHeader ext s p).cw.chunking = false → p ≠ [] →
      (writeHeader ext s p).setHeader.contentType = ext.detectContentType (p.take 512)) ∧
    (∀ (ext : GoEnv) (s : Resp) (p : Bytes), s.cw.wroteHeader = false →
      hGet s.handlerHeader "Content-Type" = "" →
      ((writeHeader ext s p).cw.chunking = true ∨ p = []) →
      (writeHeader ext s p).setHeader.contentType = s.setHeader.contentType) ∧
    (∀ (method : String) (size : Nat) (initBuf : Bytes),
      (newResponse method size initBuf).setHeader.contentType = "") := by
  refine ⟨?_, ?_, ?_, fun _ _ _ => rfl⟩
  · intro ext s p h hct
    rw [writeHeader_setHeader_eq ext s p h, decideHeader_contentType, if_pos hct]
  · intro ext s p h hct hck hp
    rw [writeHeader_chunking_eq ext s p h] at hck
    rw [writeHeader_setHeader_eq ext s p h, decideHeader_contentType,
      if_neg (by simp [hct]), if_pos ⟨hck, hp⟩]
  · intro ext s p h hct hor
    rw [writeHeader_setHeader_eq ext s p h, decideHeader_contentType,
      if_neg (by simp [hct]), if_neg ?_]
    rcases hor with hck | hp
    · rw [writeHeader_chunking_eq ext s p h] at hck
      simp [hck]
    · simp [hp]

/-- Handler header with an explicit Content-Type, for the C8 witness. -/
def hhCT : List (String × String) := [("Content-Type", "application/json")]

theorem C8_content_type_decision_witness :
    (writeHeader extW { sFresh with handlerHeader := hhCT } (str "x")).setHeader.contentType =
      hGet hhCT "Content-Type" ∧
    (writeHeader extW sFresh (str "{}")).setHeader.contentType =
      extW.detectContentType ((str "{}").take 512) ∧
    (newResponse "GET" 8 bufW).setHeader.contentType = "" :=
  ⟨C8_content_type_decision.1 extW { sFresh with handlerHeader := hhCT } (str "x") rfl (by decide),
   C8_content_type_decision.2.1 extW sFresh (str "{}") rfl rfl (by decide) (by decide),
   C8_content_type_decision.2.2.2 "GET" 8 bufW⟩

/-- **C8 counterexample.** The claim as stated says a generic text/plain
default is applied by the `Response` constructor.  It is not: the
constructor leaves the Content-Type empty, and a full exchange in which
the finalizer also leaves it unset (explicit chunking, no handler
Content-Type) puts no Content-Type header on the wire at all. -/
theorem C8_content_type_decision_cex :
    (newResponse "GET" 8 bufW).setHeader.contentType ≠ defaultContentType ∧
    containsSub
      (serveAndFinish extW "GET" 4 (List.replicate 4 'z')
        [("Transfer-Encoding", "chunked")] []).wire
      (str "Content-Type") = false := by
  refine ⟨by decide, by decide⟩

/-! ## Write buffering and the streaming switch -/

lemma sameCore_noCache {s t : Resp} (h : sameCore s t) : t.noCache = s.noCache :=
  h.2.2.2.2.1

/-- **C3 (amended).** A `Write` on a non-hijacked, non-chunking response
whose header is logically written, whose status permits a body, and
which does not overrun a declared Content-Length: if the cumulative
bytes fit the fixed buffer and the response is not streaming, the data
is copied into the buffer at the current offset and nothing reaches the
chunk writer; otherwise the response switches to streaming — the
buffered prefix is pushed to the chunk writer's buffered front end
first, `noCache` is set (irrevocably: no operation resets it), and this
write goes through the chunk writer path; and once streaming, every
write goes through the chunk writer path, leaving the fixed buffer
untouched. -/
theorem C3_write_buffer_or_stream (ext : GoEnv) (s : Resp) (d : Bytes)
    (hhj : s.hijacked = false) (hwr : s.wroteHeader = true)
    (hck : s.cw.chunking = false) (hba : bodyAllowedForStatus s.status = true)
    (hne : d ≠ []) (hcl : ∀ l, s.contentLength = some l → s.written + d.length ≤ l) :
    (s.noCache = false → s.written + d.length ≤ s.bufSize →
      respWrite ext s d = ((0, none), { s with
        written := s.written + d.length
        buffer := listCopyAt s.buffer s.written d })) ∧
    (s.noCache = false → s.bufSize < s.written + d.length →
      respWrite ext s d = ((d.length, none),
        bwWrite ext
          (if 0 < s.written then
            bwWrite ext { s with written := s.written + d.length, noCache := true }
              (s.buffer.take s.written)
           else { s with written := s.written + d.length, noCache := true }) d) ∧
      ((respWrite ext s d).2).noCache = true) ∧
    (s.noCache = true →
      respWrite ext s d = ((d.length, none),
        bwWrite ext { s with written := s.written + d.length } d) ∧
      ((respWrite ext s d).2).noCache = true) := by
  have hclm : (match s.contentLength with
      | some l => decide (l < s.written + d.length)
      | none => false) = false := by
    cases hc : s.contentLength with
    | none => rfl
    | some l => simpa using hcl l hc
  refine ⟨?_, ?_, ?_⟩
  · intro hnc hfit
    unfold respWrite
    simp [hhj, hwr, hck, hba, hne, hclm, hnc, hfit]
  · intro hnc hover
    have hover' : ¬ (s.written + d.length ≤ s.bufSize) := by omega
    constructor
    · unfold respWrite
      simp [hhj, hwr, hck, hba, hne, hclm, hnc, hover']
    · unfold respWrite
      simp [hhj, hwr, hck, hba, hne, hclm, hnc, hover']
      split <;>
        simp [sameCore_noCache (bwWrite_sameCore ext _ _),
          sameCore_noCache (bwWrite_sameCore ext _ _)]
  · intro hnc
    constructor
    · unfold respWrite
      simp [hhj, hwr, hck, hba, hne, hclm, hnc]
    · unfold respWrite
      simp [hhj, hwr, hck, hba, hne, hclm, hnc,
        sameCore_noCache (bwWrite_sameCore ext _ _)]

/-- Fresh response with the header logically written (status 200),
used by the C3 witness. -/
def sC3w : Resp := writeHeaderCore sFresh 200

theorem C3_write_buffer_or_stream_witness :
    sC3w.noCache = false ∧
    respWrite extW sC3w (str "ab") = ((0, none), { sC3w with
      written := sC3w.written + (str "ab").length
      buffer := listCopyAt sC3w.buffer sC3w.written (str "ab") }) :=
  ⟨rfl,
   (C3_write_buffer_or_stream extW sC3w (str "ab") rfl rfl rfl (by decide) (by decide)
      (fun l hl => by
        have h0 : sC3w.contentLength = none := by decide
        rw [h0] at hl
        exact Option.noConfusion hl)).1 rfl (by decide)⟩

/-- Status-204 response used by the C3 counterexample. -/
def s204 : Resp := writeHeaderCore sFresh 204

/-- **C3 counterexample.** As stated, the claim promises that any fitting
write on a non-hijacked, non-chunking, non-streaming response is placed
into the buffer.  Two fitting writes that are not placed: one that
overruns an accepted declared Content-Length (error, buffer untouched),
and one on a status (204) that forbids a body. -/
theorem C3_write_buffer_or_stream_cex :
    (sC4.hijacked = false ∧ sC4.cw.chunking = false ∧ sC4.noCache = false ∧
      sC4.written + (str "abcd").length ≤ sC4.bufSize ∧
      ((respWrite extW sC4 (str "abcd")).2).buffer ≠
        listCopyAt sC4.buffer sC4.written (str "abcd")) ∧
    (s204.hijacked = false ∧ s204.cw.chunking = false ∧ s204.noCache = false ∧
      s204.written + (str "ab").length ≤ s204.bufSize ∧
      ((respWrite extW s204 (str "ab")).2).buffer ≠
        listCopyAt s204.buffer s204.written (str "ab")) :=
  ⟨⟨rfl, rfl, rfl, by decide, by decide⟩, ⟨rfl, rfl, rfl, by decide, by decide⟩⟩

/-- **C6 (code bug).** For a HEAD request in chunking mode, the chunk
writer's `close` still emits the chunked terminator `0\r\n\r\n`: body-
section bytes appear on the wire after the header's blank line, although
the spec demands that body bytes never follow headers for HEAD.  The
payload itself is correctly discarded — the wire of the exchange that
wrote "Hi" equals the wire of the exchange that wrote nothing. -/
theorem C6_head_close_emits_terminator :
    (serveAndFinish extW "HEAD" 4 (List.replicate 4 'z')
        [("Transfer-Encoding", "chunked")] [str "Hi"]).wire =
      str "HTTP/1.1 200 OK\r\nDate: D\r\nTransfer-Encoding: chunked\r\n\r\n" ++
        str "0" ++ crlfB ++ crlfB ∧
    (serveAndFinish extW "HEAD" 4 (List.replicate 4 'z')
        [("Transfer-Encoding", "chunked")] [str "Hi"]).wire =
      (serveAndFinish extW "HEAD" 4 (List.replicate 4 'z')
        [("Transfer-Encoding", "chunked")] []).wire := by
  exact ⟨by decide, by decide⟩

/-! ## The default (buffered, Content-Length) exchange -/

/-- State at handler-dispatch time: fresh response plus the headers the
handler has set through `Header()`. -/
def initR (m : String) (size : Nat) (ib : Bytes) (hh : List (String × String)) : Resp :=
  { newResponse m size ib with handlerHeader := hh }

/-- Response state after the implicit `WriteHeader(200)` and a sequence
of buffered writes totalling `processed` (neither an explicit
Content-Length nor explicit chunking in play). -/
def p1State (m : String) (size : Nat) (ib : Bytes) (hh : List (String × String))
    (processed : Bytes) : Resp :=
  { initR m size ib hh with
    wroteHeader := true
    status := 200
    written := processed.length
    buffer := processed ++ ib.drop processed.length }

lemma writeHeaderCore_wroteHeader (s : Resp) (code : Int) :
    (writeHeaderCore s code).wroteHeader = true := by
  unfold writeHeaderCore
  dsimp only
  (repeat' split) <;> rfl

/-- `WriteHeader` with no handler Content-Length and no explicit
chunked Transfer-Encoding only records the flag and the status. -/
lemma writeHeaderCore_plain (s : Resp) (code : Int)
    (hcl : hGet s.handlerHeader "Content-Length" = "")
    (hte : hGet s.handlerHeader "Transfer-Encoding" ≠ "chunked") :
    writeHeaderCore s code = { s with wroteHeader := true, status := code } := by
  unfold writeHeaderCore
  dsimp only
  simp [hcl, hte]

/-- A `Write` on a fresh response first performs the implicit
`WriteHeader(200)`. -/
lemma respWrite_writeHeaderFirst (ext : GoEnv) (s : Resp) (d : Bytes)
    (hhj : s.hijacked = false) (hwr : s.wroteHeader = false) :
    respWrite ext s d = respWrite ext (writeHeaderCore s 200) d := by
  have h1 : (writeHeaderCore s 200).hijacked = false := by
    rw [(writeHeaderCore_pres s 200).2.2.1]; exact hhj
  have h2 : (writeHeaderCore s 200).wroteHeader = true := writeHeaderCore_wroteHeader s 200
  unfold respWrite
  simp [hhj, hwr, h1, h2]

lemma p1State_nil (m : String) (size : Nat) (ib : Bytes) (hh : List (String × String)) :
    p1State m size ib hh [] = { initR m size ib hh with wroteHeader := true, status := 200 } := by
  simp [p1State, initR, newResponse]

/-- One buffered write step: the bytes are appended in the fixed buffer
and the counter advances. -/
lemma c1_step (ext : GoEnv) (m : String) (size : Nat) (ib : Bytes)
    (hh : List (String × String)) (processed d : Bytes)
    (hib : ib.length = size)
    (hcl : hGet hh "Content-Length" = "")
    (hfit : processed.length + d.length ≤ size) :
    (respWrite ext (p1State m size ib hh processed) d).2 =
      p1State m size ib hh (processed ++ d) := by
  rcases Decidable.em (d = []) with hd | hd
  · subst hd
    unfold respWrite
    simp [p1State, initR, newResponse]
  · have hba : bodyAllowedForStatus (200 : Int) = true := by decide
    unfold respWrite
    simp only [p1State, initR, newResponse]
    simp [hd, hba, hfit, listCopyAt]

/-- Running the handler's writes keeps the response in the buffered
phase as long as everything fits the fixed buffer. -/
lemma c1_run (ext : GoEnv) (m : String) (size : Nat) (ib : Bytes)
    (hh : List (String × String)) (ws : List Bytes) (processed : Bytes)
    (hib : ib.length = size)
    (hcl : hGet hh "Content-Length" = "")
    (hlen : processed.length + ws.flatten.length ≤ size) :
    runWrites ext (p1State m size ib hh processed) ws =
      p1State m size ib hh (processed ++ ws.flatten) := by
  induction ws generalizing processed with
  | nil => simp [runWrites]
  | cons d rest ih =>
    have hstep := c1_step ext m size ib hh processed d hib hcl
      (by simp at hlen; omega)
    have : runWrites ext (p1State m size ib hh processed) (d :: rest) =
        runWrites ext ((respWrite ext (p1State m size ib hh processed) d).2) rest := rfl
    rw [this, hstep, ih (processed ++ d) (by simp at hlen ⊢; omega)]
    simp

/-- The finalized header set for the small-body fast path. -/
def c1SetHeader (ext : GoEnv) (hh : List (String × String)) (body : Bytes) : SetHeader :=
  { date := ext.dateStr
    contentLength := natDec body.length
    contentType :=
      if hGet hh "Content-Type" ≠ "" then hGet hh "Content-Type"
      else ext.detectContentType (body.take 512)
    connection := hGet hh "Connection"
    transferEncoding := "" }

/-- The whole header section of a small-body response. -/
def c1Header (ext : GoEnv) (hh : List (String × String)) (body : Bytes) : Bytes :=
  statusLineStr ext 200 ++ headerWriteBytes (c1SetHeader ext hh body) ++
    passThrough hh ++ crlfB

/-- `decideHeader` on the small-body fast path: infer the
Content-Length from the sample, no chunking, sniff or copy the
Content-Type. -/
lemma decideHeader_smallBody (ext : GoEnv) (s : Resp) (p : Bytes)
    (h1 : s.setHeader = {}) (h2 : s.cw.chunking = false) (h3 : s.noCache = false)
    (h4 : s.handlerDone = true) (hp : p ≠ []) :
    decideHeader ext s p = (c1SetHeader ext s.handlerHeader p, false, some p.length) := by
  unfold decideHeader frameHeader c1SetHeader
  rw [h1]
  dsimp only
  by_cases hct : hGet s.handlerHeader "Content-Type" ≠ "" <;>
    by_cases hco : hGet s.handlerHeader "Connection" ≠ "" <;>
      simp_all

/-- Finishing a buffered exchange: drain, emit the header with the
inferred Content-Length, write the body raw (discarded for HEAD),
close without chunk framing. -/
lemma c1_finish (ext : GoEnv) (m : String) (size : Nat) (ib : Bytes)
    (hh : List (String × String)) (processed : Bytes)
    (hib : ib.length = size) (hp : processed ≠ []) (hlen : processed.length ≤ size) :
    finishRequest ext (p1State m size ib hh processed) =
      { p1State m size ib hh processed with
        handlerDone := true
        written := 0
        contentLength := some processed.length
        setHeader := c1SetHeader ext hh processed
        cw := { wroteHeader := true, chunking := false }
        wire := c1Header ext hh processed ++ (if m == "HEAD" then [] else processed) } := by
  have hlp : 0 < processed.length := List.length_pos.mpr hp
  have e3 : writeHeader ext { p1State m size ib hh processed with
      handlerDone := true, bw := [], written := 0 } processed =
      { p1State m size ib hh processed with
        handlerDone := true, bw := [], written := 0
        contentLength := some processed.length
        setHeader := c1SetHeader ext hh processed
        cw := { wroteHeader := true, chunking := false }
        wire := c1Header ext hh processed } := by
    unfold writeHeader
    rw [decideHeader_smallBody ext _ processed (by simp [p1State, initR, newResponse])
      (by simp [p1State, initR, newResponse]) (by simp [p1State, initR, newResponse])
      (by simp [p1State, initR, newResponse]) hp]
    simp [p1State, initR, newResponse, c1Header]
  have e2 : cwWrite ext { p1State m size ib hh processed with
      handlerDone := true, bw := [], written := 0 } processed =
      { p1State m size ib hh processed with
        handlerDone := true, bw := [], written := 0
        contentLength := some processed.length
        setHeader := c1SetHeader ext hh processed
        cw := { wroteHeader := true, chunking := false }
        wire := c1Header ext hh processed ++ (if m == "HEAD" then [] else processed) } := by
    unfold cwWrite
    rw [e3]
    by_cases hm : m == "HEAD"
    · simp [p1State, initR, newResponse, hm]
    · simp [p1State, initR, newResponse, hm]
  have e1 : respFlush ext { p1State m size ib hh processed with handlerDone := true } =
      cwFlush ext (bwFlush ext { p1State m size ib hh processed with
        handlerDone := true, bw := processed, written := 0 }) := by
    unfold respFlush bwWrite
    simp [p1State, initR, newResponse, hlp, hlen, List.take_left]
  have e0 : bwFlush ext { p1State m size ib hh processed with
      handlerDone := true, bw := processed, written := 0 } =
      cwWrite ext { p1State m size ib hh processed with
        handlerDone := true, bw := [], written := 0 } processed := by
    unfold bwFlush
    simp [p1State, initR, newResponse, hp]
  have main : finishRequest ext (p1State m size ib hh processed) =
      cwClose ext (bwFlush ext (respFlush ext
        { p1State m size ib hh processed with handlerDone := true })) := rfl
  rw [main, e1, e0, e2]
  have eflush : cwFlush ext
      { p1State m size ib hh processed with
        handlerDone := true, bw := [], written := 0
        contentLength := some processed.length
        setHeader := c1SetHeader ext hh processed
        cw := { wroteHeader := true, chunking := false }
        wire := c1Header ext hh processed ++ (if m == "HEAD" then [] else processed) } =
      { p1State m size ib hh processed with
        handlerDone := true, bw := [], written := 0
        contentLength := some processed.length
        setHeader := c1SetHeader ext hh processed
        cw := { wroteHeader := true, chunking := false }
        wire := c1Header ext hh processed ++ (if m == "HEAD" then [] else processed) } :=
    writeHeader_skip ext _ [] rfl
  rw [eflush]
  have ebw : bwFlush ext
      { p1State m size ib hh processed with
        handlerDone := true, bw := [], written := 0
        contentLength := some processed.length
        setHeader := c1SetHeader ext hh processed
        cw := { wroteHeader := true, chunking := false }
        wire := c1Header ext hh processed ++ (if m == "HEAD" then [] else processed) } =
      { p1State m size ib hh processed with
        handlerDone := true, bw := [], written := 0
        contentLength := some processed.length
        setHeader := c1SetHeader ext hh processed
        cw := { wroteHeader := true, chunking := false }
        wire := c1Header ext hh processed ++ (if m == "HEAD" then [] else processed) } := by
    unfold bwFlush
    simp
  rw [ebw]
  unfold cwClose
  rw [writeHeader_skip ext _ [] rfl]
  simp [p1State, initR, newResponse]

/-- **C1 (amended).** For every non-empty body that fits strictly below
the fixed buffer size, when the handler set no explicit Content-Length
and no explicit `Transfer-Encoding: chunked`, the response emitted
after `FinishRequest` is exactly one header section carrying
`Content-Length` equal to the body length and an empty
Transfer-Encoding (so no chunked Transfer-Encoding header), followed by
the raw body (discarded for HEAD) — no chunk framing on the wire. -/
theorem C1_small_body_content_length (ext : GoEnv) (m : String) (size : Nat) (ib : Bytes)
    (hh : List (String × String)) (ws : List Bytes)
    (hib : ib.length = size)
    (hlen : ws.flatten.length < size)
    (hne : ws.flatten ≠ [])
    (hcl : hGet hh "Content-Length" = "")
    (hte : hGet hh "Transfer-Encoding" ≠ "chunked") :
    (serveAndFinish ext m size ib hh ws).wire =
      c1Header ext hh ws.flatten ++ (if m == "HEAD" then [] else ws.flatten) ∧
    (serveAndFinish ext m size ib hh ws).setHeader.contentLength = natDec ws.flatten.length ∧
    (serveAndFinish ext m size ib hh ws).setHeader.transferEncoding = "" ∧
    (serveAndFinish ext m size ib hh ws).cw.chunking = false := by
  have hrun : runWrites ext (initR m size ib hh) ws = p1State m size ib hh ws.flatten := by
    cases ws with
    | nil => simp at hne
    | cons d rest =>
      have hlist : (d :: rest).flatten = d ++ rest.flatten := rfl
      have hd : d.length + rest.flatten.length < size := by
        rw [hlist] at hlen
        simpa using hlen
      have hstep1 : runWrites ext (initR m size ib hh) (d :: rest) =
          runWrites ext ((respWrite ext (initR m size ib hh) d).2) rest := rfl
      rw [hstep1, respWrite_writeHeaderFirst ext _ d rfl rfl,
        writeHeaderCore_plain _ 200 hcl hte, ← p1State_nil m size ib hh]
      have hstep2 := c1_step ext m size ib hh [] d hib hcl (by simp; omega)
      rw [hstep2]
      simp only [List.nil_append]
      rw [c1_run ext m size ib hh rest d hib hcl (by omega), hlist]
  have hserve : serveAndFinish ext m size ib hh ws =
      finishRequest ext (runWrites ext (initR m size ib hh) ws) := rfl
  rw [hserve, hrun, c1_finish ext m size ib hh ws.flatten hib hne (le_of_lt hlen)]
  exact ⟨rfl, rfl, rfl, rfl⟩

/-- **C1 counterexample.** As stated the claim fails twice: an empty
body (length 0 < buffer size, no explicit Content-Length) produces a
response with no Content-Length header at all, and a short body with
explicit `Transfer-Encoding: chunked` (still no Content-Length set)
produces a chunk-framed response with a chunked Transfer-Encoding
header and no Content-Length. -/
theorem C1_small_body_content_length_cex :
    containsSub (serveAndFinish extW "GET" 4 (List.replicate 4 'z') [] []).wire
      (str "Content-Length") = false ∧
    containsSub (serveAndFinish extW "GET" 4 (List.replicate 4 'z')
        [("Transfer-Encoding", "chunked")] [str "a"]).wire
      (str "Transfer-Encoding: chunked") = true ∧
    containsSub (serveAndFinish extW "GET" 4 (List.replicate 4 'z')
        [("Transfer-Encoding", "chunked")] [str "a"]).wire
      (str "Content-Length") = false :=
  ⟨by decide, by decide, by decide⟩

theorem C1_small_body_content_length_witness :
    ([str "ab"] : List Bytes).flatten.length < 4 ∧
    ((serveAndFinish extW "GET" 4 (List.replicate 4 'z') [] [str "ab"]).wire =
        c1Header extW [] ([str "ab"] : List Bytes).flatten ++
          (if ("GET" : String) == "HEAD" then [] else ([str "ab"] : List Bytes).flatten) ∧
      (serveAndFinish extW "GET" 4 (List.replicate 4 'z') [] [str "ab"]).setHeader.contentLength =
        natDec ([str "ab"] : List Bytes).flatten.length ∧
      (serveAndFinish extW "GET" 4 (List.replicate 4 'z') [] [str "ab"]).setHeader.transferEncoding = "" ∧
      (serveAndFinish extW "GET" 4 (List.replicate 4 'z') [] [str "ab"]).cw.chunking = false) :=
  ⟨by decide,
   C1_small_body_content_length extW "GET" 4 (List.replicate 4 'z') [] [str "ab"]
     (by decide) (by decide) (by decide) (by decide) (by decide)⟩

/-! ## The chunked exchange -/

/-- The finalized header set of a chunked response. -/
def chunkedSetHeader (ext : GoEnv) (hh : List (String × String)) : SetHeader :=
  { date := ext.dateStr
    contentLength := ""
    contentType := hGet hh "Content-Type"
    connection := hGet hh "Connection"
    transferEncoding := "chunked" }

/-- The whole header section of a chunked response. -/
def chunkedHeader (ext : GoEnv) (hh : List (String × String)) : Bytes :=
  statusLineStr ext 200 ++ headerWriteBytes (chunkedSetHeader ext hh) ++
    passThrough hh ++ crlfB

/-- One chunk on the wire: hex size, CRLF, payload, CRLF. -/
def encodeChunk (c : Bytes) : Bytes := hexStr c.length ++ crlfB ++ c ++ crlfB

def encodeChunks (cs : List Bytes) : Bytes := (cs.map encodeChunk).flatten

/-- The chunked-body terminator: zero-size chunk plus blank line. -/
def chunkEnd : Bytes := str "0" ++ crlfB ++ crlfB

lemma encodeChunks_append (cs : List Bytes) (c : Bytes) :
    encodeChunks (cs ++ [c]) = encodeChunks cs ++ encodeChunk c := by
  simp [encodeChunks]

/-- State template for the chunked exchange (status 200, no declared
length, header logically written, not hijacked). -/
def c2State (m : String) (size : Nat) (hh : List (String × String))
    (don nc : Bool) (wr : Nat) (bf : Bytes) (sh : SetHeader) (c : ChunkW)
    (b : Bytes) (wi : Bytes) : Resp :=
  { method := m, wroteHeader := true, status := 200, contentLength := none,
    written := wr, noCache := nc, hijacked := false, handlerDone := don,
    bufSize := size, buffer := bf, handlerHeader := hh, setHeader := sh,
    cw := c, bw := b, wire := wi }

/-- The three header situations of the chunked exchange: explicit
chunking still pending, streaming chunking still pending, or header
emitted with the chunks `cs` on the wire. -/
def C2Case (ext : GoEnv) (hh : List (String × String)) (sh : SetHeader)
    (c : ChunkW) (nc : Bool) (wi : Bytes) (cs : List Bytes) : Prop :=
  (c = ⟨false, true⟩ ∧ sh = { transferEncoding := "chunked" } ∧ wi = [] ∧ cs = []) ∨
  (c = ⟨false, false⟩ ∧ nc = true ∧ sh = {} ∧ (wi = [] ∧ cs = [])) ∨
  (c = ⟨true, true⟩ ∧ sh = chunkedSetHeader ext hh ∧
    wi = chunkedHeader ext hh ++ encodeChunks cs)

/-- Invariant of the chunked exchange: the state matches the template,
the middle writer holds at most a bufferful, the header is pending or
emitted as described by `C2Case`, the emitted chunks are non-empty, and
the bytes processed so far are exactly the emitted chunks followed by
the middle writer's content. -/
def C2Inv (ext : GoEnv) (m : String) (size : Nat) (hh : List (String × String))
    (processed : Bytes) (s : Resp) : Prop :=
  ∃ (don nc : Bool) (wr : Nat) (bf : Bytes) (sh : SetHeader) (c : ChunkW)
      (b : Bytes) (wi : Bytes) (cs : List Bytes),
    s = c2State m size hh don nc wr bf sh c b wi ∧
    b.length ≤ size ∧
    (nc = false → wr = 0) ∧
    C2Case ext hh sh c nc wi cs ∧
    (∀ x ∈ cs, x ≠ []) ∧
    processed = cs.flatten ++ b

/-- `decideHeader` in the two chunking situations: explicitly locked
chunking, or streaming with no explicit Transfer-Encoding.  Both
finalize to the chunked header set. -/
lemma decideHeader_chunked (ext : GoEnv) (s : Resp) (p : Bytes)
    (hcase : (s.cw.chunking = true ∧ s.setHeader = { transferEncoding := "chunked" }) ∨
             (s.cw.chunking = false ∧ s.noCache = true ∧ s.setHeader = {})) :
    decideHeader ext s p = (chunkedSetHeader ext s.handlerHeader, true, s.contentLength) := by
  rcases hcase with ⟨h1, h2⟩ | ⟨h1, h2, h3⟩
  · unfold decideHeader frameHeader chunkedSetHeader
    rw [h2]
    dsimp only
    by_cases hct : hGet s.handlerHeader "Content-Type" ≠ "" <;>
      by_cases hco : hGet s.handlerHeader "Connection" ≠ "" <;>
        simp_all
  · unfold decideHeader frameHeader chunkedSetHeader
    rw [h3]
    dsimp only
    by_cases hct : hGet s.handlerHeader "Content-Type" ≠ "" <;>
      by_cases hco : hGet s.handlerHeader "Connection" ≠ "" <;>
        simp_all [containsSub]

/-- Header emission in a chunking situation. -/
lemma writeHeader_chunked (ext : GoEnv) (s : Resp) (p : Bytes)
    (hW : s.cw.wroteHeader = false) (hst : s.status = 200)
    (hcase : (s.cw.chunking = true ∧ s.setHeader = { transferEncoding := "chunked" }) ∨
             (s.cw.chunking = false ∧ s.noCache = true ∧ s.setHeader = {})) :
    writeHeader ext s p = { s with
      setHeader := chunkedSetHeader ext s.handlerHeader
      cw := { wroteHeader := true, chunking := true }
      wire := s.wire ++ chunkedHeader ext s.handlerHeader } := by
  unfold writeHeader
  rw [decideHeader_chunked ext s p hcase]
  simp [hW, chunkedHeader, hst]

/-- `WriteHeader` when the handler explicitly requested chunking. -/
lemma writeHeaderCore_chunkedTE (s : Resp) (code : Int)
    (hcl : hGet s.handlerHeader "Content-Length" = "")
    (hte : hGet s.handlerHeader "Transfer-Encoding" = "chunked") :
    writeHeaderCore s code = { s with
      wroteHeader := true
      status := code
      cw := { s.cw with chunking := true }
      setHeader := { s.setHeader with transferEncoding := "chunked" } } := by
  unfold writeHeaderCore
  dsimp only
  simp [hcl, hte]

/-- `cwWrite` with a non-empty payload, away from HEAD, in the chunked
exchange: emits the header first if still pending, then appends one
chunk. -/
lemma cwWrite_c2core (ext : GoEnv) (m : String) (size : Nat)
    (hh : List (String × String)) (hm : (m == "HEAD") = false)
    (don nc : Bool) (wr : Nat) (bf : Bytes) (sh : SetHeader) (c : ChunkW)
    (b wi : Bytes) (cs : List Bytes) (p : Bytes)
    (hcase : C2Case ext hh sh c nc wi cs) :
    cwWrite ext (c2State m size hh don nc wr bf sh c b wi) p =
      c2State m size hh don nc wr bf (chunkedSetHeader ext hh) ⟨true, true⟩ b
        (chunkedHeader ext hh ++ encodeChunks (cs ++ [p])) := by
  unfold C2Case at hcase
  rcases hcase with ⟨h1, h2, h3, h4⟩ | ⟨h1, h2, h3, h4⟩ | ⟨h1, h2, h3⟩
  · subst h1 h2 h3 h4
    unfold cwWrite
    rw [writeHeader_chunked ext _ p rfl rfl (Or.inl ⟨rfl, rfl⟩)]
    simp [c2State, hm, encodeChunks, encodeChunk]
  · obtain ⟨h4a, h4b⟩ := h4
    subst h1 h2 h3 h4a h4b
    unfold cwWrite
    rw [writeHeader_chunked ext _ p rfl rfl (Or.inr ⟨rfl, rfl, rfl⟩)]
    simp [c2State, hm, encodeChunks, encodeChunk]
  · subst h1 h2 h3
    unfold cwWrite
    rw [writeHeader_skip ext _ p rfl]
    simp [c2State, hm, encodeChunks_append, encodeChunk]

lemma c2State_bw_update (m : String) (size : Nat) (hh : List (String × String))
    (don nc : Bool) (wr : Nat) (bf : Bytes) (sh : SetHeader) (c : ChunkW)
    (b wi x : Bytes) :
    { c2State m size hh don nc wr bf sh c b wi with bw := x } =
      c2State m size hh don nc wr bf sh c x wi := rfl

/-- The middle writer preserves the chunked-exchange invariant: a write
either stays buffered or goes out as one or two further chunks. -/
lemma bwWrite_c2 (ext : GoEnv) (m : String) (size : Nat)
    (hh : List (String × String)) (hm : (m == "HEAD") = false)
    (processed p : Bytes) (s : Resp) (hp : p ≠ [])
    (hinv : C2Inv ext m size hh processed s) :
    C2Inv ext m size hh (processed ++ p) (bwWrite ext s p) := by
  obtain ⟨don, nc, wr, bf, sh, c, b, wi, cs, hs, hb, hwr0, hcase, hne, hproc⟩ := hinv
  subst hs hproc
  have e0 : bwWrite ext (c2State m size hh don nc wr bf sh c b wi) p =
      (if p.length ≤ size - b.length then c2State m size hh don nc wr bf sh c (b ++ p) wi
       else if b.length = 0 then
         cwWrite ext (c2State m size hh don nc wr bf sh c b wi) p
       else
         let s' := cwWrite ext (c2State m size hh don nc wr bf sh c [] wi)
           (b ++ p.take (size - b.length))
         if (p.drop (size - b.length)).length ≤ size then { s' with bw := p.drop (size - b.length) }
         else cwWrite ext s' (p.drop (size - b.length))) := rfl
  rw [e0]
  by_cases hfit : p.length ≤ size - b.length
  · rw [if_pos hfit]
    refine ⟨don, nc, wr, bf, sh, c, b ++ p, wi, cs, rfl, by simp; omega, hwr0, hcase, hne, by simp⟩
  · rw [if_neg hfit]
    by_cases hb0 : b.length = 0
    · rw [if_pos hb0]
      have hbnil : b = [] := List.length_eq_zero.mp hb0
      subst hbnil
      rw [cwWrite_c2core ext m size hh hm don nc wr bf sh c [] wi cs p hcase]
      refine ⟨don, nc, wr, bf, chunkedSetHeader ext hh, ⟨true, true⟩, [], _, cs ++ [p],
        rfl, by simp, hwr0, Or.inr (Or.inr ⟨rfl, rfl, rfl⟩), ?_, by simp⟩
      intro x hx
      rcases List.mem_append.mp hx with h | h
      · exact hne x h
      · simp at h
        subst h
        exact hp
    · rw [if_neg hb0]
      have hbne : b ≠ [] := fun hnil => hb0 (by simp [hnil])
      have hchunkne : b ++ p.take (size - b.length) ≠ [] := by
        simp [hbne]
      rw [cwWrite_c2core ext m size hh hm don nc wr bf sh c [] wi cs
        (b ++ p.take (size - b.length)) hcase]
      dsimp only
      have hne1 : ∀ x ∈ cs ++ [b ++ p.take (size - b.length)], x ≠ [] := by
        intro x hx
        rcases List.mem_append.mp hx with h | h
        · exact hne x h
        · simp at h
          subst h
          exact hchunkne
      by_cases hrest : (p.drop (size - b.length)).length ≤ size
      · rw [if_pos hrest, c2State_bw_update]
        refine ⟨don, nc, wr, bf, chunkedSetHeader ext hh, ⟨true, true⟩,
          p.drop (size - b.length), _, cs ++ [b ++ p.take (size - b.length)],
          rfl, hrest, hwr0, Or.inr (Or.inr ⟨rfl, rfl, rfl⟩), hne1, by simp⟩
      · rw [if_neg hrest]
        have hrestne : p.drop (size - b.length) ≠ [] := by
          intro hnil
          rw [hnil] at hrest
          simp at hrest
        rw [cwWrite_c2core ext m size hh hm don nc wr bf (chunkedSetHeader ext hh)
          ⟨true, true⟩ [] _ (cs ++ [b ++ p.take (size - b.length)])
          (p.drop (size - b.length)) (Or.inr (Or.inr ⟨rfl, rfl, rfl⟩))]
        refine ⟨don, nc, wr, bf, chunkedSetHeader ext hh, ⟨true, true⟩, [], _,
          cs ++ [b ++ p.take (size - b.length)] ++ [p.drop (size - b.length)],
          rfl, by simp, hwr0, Or.inr (Or.inr ⟨rfl, rfl, rfl⟩), ?_, by simp⟩
        intro x hx
        rcases List.mem_append.mp hx with h | h
        · exact hne1 x h
        · simp at h
          subst h
          exact hrestne

/-- Flushing the middle writer preserves the invariant and empties it. -/
lemma bwFlush_c2 (ext : GoEnv) (m : String) (size : Nat)
    (hh : List (String × String)) (hm : (m == "HEAD") = false)
    (processed : Bytes) (s : Resp)
    (hinv : C2Inv ext m size hh processed s) :
    C2Inv ext m size hh processed (bwFlush ext s) ∧ (bwFlush ext s).bw = [] := by
  obtain ⟨don, nc, wr, bf, sh, c, b, wi, cs, hs, hb, hwr0, hcase, hne, hproc⟩ := hinv
  subst hs hproc
  have e0 : bwFlush ext (c2State m size hh don nc wr bf sh c b wi) =
      (if b = [] then c2State m size hh don nc wr bf sh c b wi
       else cwWrite ext (c2State m size hh don nc wr bf sh c [] wi) b) := rfl
  rw [e0]
  by_cases hb0 : b = []
  · rw [if_pos hb0]
    subst hb0
    exact ⟨⟨don, nc, wr, bf, sh, c, [], wi, cs, rfl, by simp, hwr0, hcase, hne, rfl⟩, rfl⟩
  · rw [if_neg hb0]
    rw [cwWrite_c2core ext m size hh hm don nc wr bf sh c [] wi cs b hcase]
    refine ⟨⟨don, nc, wr, bf, chunkedSetHeader ext hh, ⟨true, true⟩, [], _, cs ++ [b],
      rfl, by simp, hwr0, Or.inr (Or.inr ⟨rfl, rfl, rfl⟩), ?_, by simp⟩, rfl⟩
    intro x hx
    rcases List.mem_append.mp hx with h | h
    · exact hne x h
    · simp at h
      subst h
      exact hb0

lemma respWrite_chunking_eq (ext : GoEnv) (s : Resp) (d : Bytes)
    (hhj : s.hijacked = false) (hwr : s.wroteHeader = true)
    (hck : s.cw.chunking = true) (hba : bodyAllowedForStatus s.status = true)
    (hd : d ≠ []) :
    respWrite ext s d = ((d.length, none), bwWrite ext s d) := by
  unfold respWrite
  simp [hhj, hwr, hck, hba, hd]

lemma respWrite_streaming_eq (ext : GoEnv) (s : Resp) (d : Bytes)
    (hhj : s.hijacked = false) (hwr : s.wroteHeader = true)
    (hck : s.cw.chunking = false) (hba : bodyAllowedForStatus s.status = true)
    (hd : d ≠ []) (hnc : s.noCache = true) (hcl : s.contentLength = none) :
    respWrite ext s d =
      ((d.length, none), bwWrite ext { s with written := s.written + d.length } d) := by
  unfold respWrite
  simp [hhj, hwr, hck, hba, hd, hnc, hcl]

lemma respWrite_switch_eq (ext : GoEnv) (s : Resp) (d : Bytes)
    (hhj : s.hijacked = false) (hwr : s.wroteHeader = true)
    (hck : s.cw.chunking = false) (hba : bodyAllowedForStatus s.status = true)
    (hd : d ≠ []) (hcl : s.contentLength = none) (hnc : s.noCache = false)
    (hover : ¬ (s.written + d.length ≤ s.bufSize)) :
    respWrite ext s d = ((d.length, none),
      bwWrite ext
        (if 0 < s.written then
          bwWrite ext { s with written := s.written + d.length, noCache := true }
            (s.buffer.take s.written)
         else { s with written := s.written + d.length, noCache := true }) d) := by
  unfold respWrite
  simp [hhj, hwr, hck, hba, hd, hcl, hnc, hover]

/-- A handler write preserves the chunked-exchange invariant. -/
lemma respWrite_c2 (ext : GoEnv) (m : String) (size : Nat)
    (hh : List (String × String)) (hm : (m == "HEAD") = false)
    (processed d : Bytes) (s : Resp)
    (hinv : C2Inv ext m size hh processed s) :
    C2Inv ext m size hh (processed ++ d) ((respWrite ext s d).2) := by
  obtain ⟨don, nc, wr, bf, sh, c, b, wi, cs, hs, hb, hwr0, hcase, hne, hproc⟩ := hinv
  by_cases hd : d = []
  · subst hd hs
    have e : respWrite ext (c2State m size hh don nc wr bf sh c b wi) [] =
        ((0, none), c2State m size hh don nc wr bf sh c b wi) := rfl
    rw [e]
    exact ⟨don, nc, wr, bf, sh, c, b, wi, cs, rfl, hb, hwr0, hcase, hne, by simp [hproc]⟩
  · subst hs
    have hba : bodyAllowedForStatus (c2State m size hh don nc wr bf sh c b wi).status = true := by
      show bodyAllowedForStatus (200 : Int) = true
      decide
    have hchunk : c.chunking = true ∨ (c.chunking = false ∧ nc = true) := by
      rcases hcase with ⟨h1, _⟩ | ⟨h1, h2, _⟩ | ⟨h1, _⟩
      · rw [h1]; left; rfl
      · rw [h1]; right; exact ⟨rfl, h2⟩
      · rw [h1]; left; rfl
    rcases hchunk with hck | ⟨hck, hnc⟩
    · rw [respWrite_chunking_eq ext _ d rfl rfl hck hba hd]
      exact bwWrite_c2 ext m size hh hm processed d _ hd
        ⟨don, nc, wr, bf, sh, c, b, wi, cs, rfl, hb, hwr0, hcase, hne, hproc⟩
    · rw [respWrite_streaming_eq ext _ d rfl rfl hck hba hd hnc rfl]
      have eupd : { c2State m size hh don nc wr bf sh c b wi with
          written := (c2State m size hh don nc wr bf sh c b wi).written + d.length } =
          c2State m size hh don nc (wr + d.length) bf sh c b wi := rfl
      rw [eupd]
      refine bwWrite_c2 ext m size hh hm processed d _ hd
        ⟨don, nc, wr + d.length, bf, sh, c, b, wi, cs, rfl, hb, ?_, hcase, hne, hproc⟩
      intro hfalse
      rw [hnc] at hfalse
      cases hfalse

/-- Running the remaining writes preserves the chunked-exchange
invariant. -/
lemma c2_run (ext : GoEnv) (m : String) (size : Nat)
    (hh : List (String × String)) (hm : (m == "HEAD") = false) :
    ∀ (ws : List Bytes) (processed : Bytes) (s : Resp),
      C2Inv ext m size hh processed s →
      C2Inv ext m size hh (processed ++ ws.flatten) (runWrites ext s ws) := by
  intro ws
  induction ws with
  | nil => intro processed s h; simpa using h
  | cons d rest ih =>
    intro processed s h
    have h1 := respWrite_c2 ext m size hh hm processed d s h
    have e : runWrites ext s (d :: rest) = runWrites ext ((respWrite ext s d).2) rest := rfl
    rw [e]
    have h2 := ih (processed ++ d) _ h1
    simpa [List.append_assoc] using h2

/-- The streaming switch: a write that overflows the fixed buffer
drains the buffered prefix to the middle writer, marks streaming, and
routes the write on — establishing the chunked-exchange invariant. -/
lemma c1_to_c2_step (ext : GoEnv) (m : String) (size : Nat) (ib : Bytes)
    (hh : List (String × String)) (hm : (m == "HEAD") = false)
    (processed d : Bytes)
    (hp1len : processed.length ≤ size)
    (hover : size < processed.length + d.length) :
    C2Inv ext m size hh (processed ++ d)
      ((respWrite ext (p1State m size ib hh processed) d).2) := by
  have hd : d ≠ [] := by
    intro h
    subst h
    simp at hover
    omega
  have hba : bodyAllowedForStatus (p1State m size ib hh processed).status = true := by
    show bodyAllowedForStatus (200 : Int) = true
    decide
  have hover' : ¬ ((p1State m size ib hh processed).written + d.length ≤
      (p1State m size ib hh processed).bufSize) := by
    show ¬ (processed.length + d.length ≤ size)
    omega
  rw [respWrite_switch_eq ext _ d rfl rfl rfl hba hd rfl rfl hover']
  have eupd : { p1State m size ib hh processed with
      written := (p1State m size ib hh processed).written + d.length, noCache := true } =
      c2State m size hh false true (processed.length + d.length)
        (processed ++ ib.drop processed.length) {} ⟨false, false⟩ [] [] := rfl
  have hinv1 : C2Inv ext m size hh []
      (c2State m size hh false true (processed.length + d.length)
        (processed ++ ib.drop processed.length) {} ⟨false, false⟩ [] []) := by
    refine ⟨false, true, processed.length + d.length, processed ++ ib.drop processed.length,
      {}, ⟨false, false⟩, [], [], [], rfl, by simp, ?_, ?_, ?_, ?_⟩
    · intro h
      cases h
    · exact Or.inr (Or.inl ⟨rfl, rfl, rfl, rfl, rfl⟩)
    · intro x hx
      simp at hx
    · rfl
  have htake : (p1State m size ib hh processed).buffer.take
      (p1State m size ib hh processed).written = processed := by
    show (processed ++ ib.drop processed.length).take processed.length = processed
    exact List.take_left processed _
  by_cases h0 : 0 < (p1State m size ib hh processed).written
  · rw [if_pos h0, eupd, htake]
    have hpne : processed ≠ [] := by
      intro h
      subst h
      simp [p1State, initR, newResponse] at h0
    have h2 := bwWrite_c2 ext m size hh hm [] processed _ hpne hinv1
    simp only [List.nil_append] at h2
    exact bwWrite_c2 ext m size hh hm processed d _ hd h2
  · rw [if_neg h0, eupd]
    have hpnil : processed = [] := by
      have : (p1State m size ib hh processed).written = processed.length := rfl
      rw [this] at h0
      simpa using List.length_eq_zero.mp (by omega)
    subst hpnil
    simpa using bwWrite_c2 ext m size hh hm [] d _ hd hinv1

/-- Running writes from the buffered phase: either everything fit (and
the state is still buffered), or the buffer overflowed and the chunked-
exchange invariant holds. -/
lemma c2_run_from_p1 (ext : GoEnv) (m : String) (size : Nat) (ib : Bytes)
    (hh : List (String × String)) (hm : (m == "HEAD") = false)
    (hib : ib.length = size) (hcl : hGet hh "Content-Length" = "") :
    ∀ (ws : List Bytes) (processed : Bytes), processed.length ≤ size →
      (runWrites ext (p1State m size ib hh processed) ws =
          p1State m size ib hh (processed ++ ws.flatten) ∧
        (processed ++ ws.flatten).length ≤ size) ∨
      C2Inv ext m size hh (processed ++ ws.flatten)
        (runWrites ext (p1State m size ib hh processed) ws) := by
  intro ws
  induction ws with
  | nil =>
    intro processed hlen
    left
    constructor
    · simp [runWrites]
    · simpa using hlen
  | cons d rest ih =>
    intro processed hlen
    have e : runWrites ext (p1State m size ib hh processed) (d :: rest) =
        runWrites ext ((respWrite ext (p1State m size ib hh processed) d).2) rest := rfl
    by_cases hfit : processed.length + d.length ≤ size
    · rw [e, c1_step ext m size ib hh processed d hib hcl hfit]
      rcases ih (processed ++ d) (by simpa using hfit) with ⟨h1, h2⟩ | h1
      · left
        constructor
        · rw [h1]
          simp
        · simpa [List.append_assoc] using h2
      · right
        simpa [List.append_assoc] using h1
    · right
      rw [e]
      have hstep := c1_to_c2_step ext m size ib hh hm processed d hlen (by omega)
      have h2 := c2_run ext m size hh hm rest (processed ++ d) _ hstep
      simpa [List.append_assoc] using h2

lemma respFlush_writeHeaderFirst (ext : GoEnv) (s : Resp)
    (hhj : s.hijacked = false) (hwr : s.wroteHeader = false) :
    respFlush ext s = respFlush ext (writeHeaderCore s 200) := by
  have h1 : (writeHeaderCore s 200).hijacked = false := by
    rw [(writeHeaderCore_pres s 200).2.2.1]; exact hhj
  have h2 : (writeHeaderCore s 200).wroteHeader = true := writeHeaderCore_wroteHeader s 200
  unfold respFlush
  simp [hhj, hwr, h1, h2]

/-- Finishing any state of the chunked exchange: the wire is the chunked
header, the non-empty chunks whose concatenation is the processed body,
and the terminator. -/
lemma c2_finish_main (ext : GoEnv) (m : String) (size : Nat)
    (hh : List (String × String)) (hm : (m == "HEAD") = false)
    (processed : Bytes) (s : Resp)
    (hinv : C2Inv ext m size hh processed s) :
    ∃ cs : List Bytes, (∀ x ∈ cs, x ≠ []) ∧ cs.flatten = processed ∧
      (finishRequest ext s).wire = chunkedHeader ext hh ++ (encodeChunks cs ++ chunkEnd) := by
  obtain ⟨don, nc, wr, bf, sh, c, b, wi, cs, hs, hb, hwr0, hcase, hne, hproc⟩ := hinv
  subst hs hproc
  have main : finishRequest ext (c2State m size hh don nc wr bf sh c b wi) =
      cwClose ext (bwFlush ext (respFlush ext (c2State m size hh true nc wr bf sh c b wi))) := rfl
  rw [main]
  have eflush : respFlush ext (c2State m size hh true nc wr bf sh c b wi) =
      cwFlush ext (bwFlush ext (c2State m size hh true nc wr bf sh c b wi)) := by
    cases nc with
    | false =>
      have h0 : wr = 0 := hwr0 rfl
      subst h0
      rfl
    | true => rfl
  rw [eflush]
  obtain ⟨hinv2, hbw2⟩ := bwFlush_c2 ext m size hh hm _ _
    ⟨true, nc, wr, bf, sh, c, b, wi, cs, rfl, hb, hwr0, hcase, hne, rfl⟩
  obtain ⟨don2, nc2, wr2, bf2, sh2, c2, b2, wi2, cs2, hs2, hb2, hwr02, hcase2, hne2, hproc2⟩ := hinv2
  rw [hs2] at hbw2
  have hb2nil : b2 = [] := hbw2
  subst hb2nil
  rw [hs2]
  refine ⟨cs2, hne2, by simpa using hproc2.symm, ?_⟩
  rcases hcase2 with ⟨h1, h2, h3, h4⟩ | ⟨h1, h2, h3, h4, h5⟩ | ⟨h1, h2, h3⟩
  · subst h1 h2 h3 h4
    have ecwf : cwFlush ext (c2State m size hh don2 nc2 wr2 bf2
        { transferEncoding := "chunked" } ⟨false, true⟩ [] []) =
        c2State m size hh don2 nc2 wr2 bf2 (chunkedSetHeader ext hh) ⟨true, true⟩ []
          (chunkedHeader ext hh) := by
      show writeHeader ext _ [] = _
      rw [writeHeader_chunked ext _ [] rfl rfl (Or.inl ⟨rfl, rfl⟩)]
      rfl
    rw [ecwf]
    show (chunkedHeader ext hh ++ str "0" ++ crlfB ++ crlfB) = _
    simp [chunkEnd, encodeChunks]
  · subst h1 h2 h3 h4 h5
    have ecwf : cwFlush ext (c2State m size hh don2 true wr2 bf2 {} ⟨false, false⟩ [] []) =
        c2State m size hh don2 true wr2 bf2 (chunkedSetHeader ext hh) ⟨true, true⟩ []
          (chunkedHeader ext hh) := by
      show writeHeader ext _ [] = _
      rw [writeHeader_chunked ext _ [] rfl rfl (Or.inr ⟨rfl, rfl, rfl⟩)]
      rfl
    rw [ecwf]
    show (chunkedHeader ext hh ++ str "0" ++ crlfB ++ crlfB) = _
    simp [chunkEnd, encodeChunks]
  · subst h1 h2 h3
    have ecwf : cwFlush ext (c2State m size hh don2 nc2 wr2 bf2 (chunkedSetHeader ext hh)
        ⟨true, true⟩ [] (chunkedHeader ext hh ++ encodeChunks cs2)) =
        c2State m size hh don2 nc2 wr2 bf2 (chunkedSetHeader ext hh) ⟨true, true⟩ []
          (chunkedHeader ext hh ++ encodeChunks cs2) :=
      writeHeader_skip ext _ [] rfl
    rw [ecwf]
    show (chunkedHeader ext hh ++ encodeChunks cs2 ++ str "0" ++ crlfB ++ crlfB) = _
    simp [chunkEnd]

/-- Finishing an exchange in which the handler demanded chunking but
never wrote: header plus bare terminator. -/
lemma c2_finish_fresh (ext : GoEnv) (m : String) (size : Nat) (ib : Bytes)
    (hh : List (String × String))
    (hcl : hGet hh "Content-Length" = "")
    (hte : hGet hh "Transfer-Encoding" = "chunked") :
    (finishRequest ext (initR m size ib hh)).wire =
      chunkedHeader ext hh ++ (encodeChunks [] ++ chunkEnd) := by
  have main : finishRequest ext (initR m size ib hh) =
      cwClose ext (bwFlush ext (respFlush ext { initR m size ib hh with handlerDone := true })) := rfl
  rw [main, respFlush_writeHeaderFirst ext _ rfl rfl, writeHeaderCore_chunkedTE _ 200 hcl hte]
  have et : ({ { initR m size ib hh with handlerDone := true } with
      wroteHeader := true
      status := 200
      cw := { { initR m size ib hh with handlerDone := true }.cw with chunking := true }
      setHeader := { { initR m size ib hh with handlerDone := true }.setHeader with
        transferEncoding := "chunked" } }) =
      c2State m size hh true false 0 ib { transferEncoding := "chunked" } ⟨false, true⟩ [] [] := rfl
  rw [et]
  have ef : respFlush ext (c2State m size hh true false 0 ib
      { transferEncoding := "chunked" } ⟨false, true⟩ [] []) =
      cwFlush ext (c2State m size hh true false 0 ib
        { transferEncoding := "chunked" } ⟨false, true⟩ [] []) := rfl
  rw [ef]
  have ecw : cwFlush ext (c2State m size hh true false 0 ib
      { transferEncoding := "chunked" } ⟨false, true⟩ [] []) =
      c2State m size hh true false 0 ib (chunkedSetHeader ext hh) ⟨true, true⟩ []
        (chunkedHeader ext hh) := by
    show writeHeader ext _ [] = _
    rw [writeHeader_chunked ext _ [] rfl rfl (Or.inl ⟨rfl, rfl⟩)]
    rfl
  rw [ecw]
  have ebw : bwFlush ext (c2State m size hh true false 0 ib (chunkedSetHeader ext hh)
      ⟨true, true⟩ [] (chunkedHeader ext hh)) =
      c2State m size hh true false 0 ib (chunkedSetHeader ext hh) ⟨true, true⟩ []
        (chunkedHeader ext hh) := rfl
  rw [ebw]
  show (chunkedHeader ext hh ++ str "0" ++ crlfB ++ crlfB) = _
  simp [chunkEnd, encodeChunks]

/-! ## De-chunking the wire -/

/-- Lowercase hex digit (as `%x` emits). -/
def isHexDigitB (c : Char) : Bool := ('0' ≤ c ∧ c ≤ '9') ∨ ('a' ≤ c ∧ c ≤ 'f')

/-- Value of a lowercase hex digit. -/
def hexVal (c : Char) : Nat := if c ≤ '9' then c.toNat - 48 else c.toNat - 87

/-- Read a maximal run of hex digits, most significant first. -/
def parseHex : Bytes → Nat → Nat × Bytes
  | [], acc => (acc, [])
  | c :: rest, acc =>
    if isHexDigitB c then parseHex rest (16 * acc + hexVal c) else (acc, c :: rest)

/-- The remainder does not start with a hex digit. -/
def noHexHead : Bytes → Prop
  | [] => True
  | c :: _ => isHexDigitB c = false

/-- Parse a chunked body: repeated hex-size CRLF payload CRLF, a
zero-size chunk, one blank line, end of input; returns the
concatenated payloads. -/
def dechunkAux : Nat → Bytes → Option Bytes
  | 0, _ => none
  | fuel + 1, input =>
    match input with
    | [] => none
    | c :: rest =>
      if isHexDigitB c then
        let pr := parseHex (c :: rest) 0
        match pr.2 with
        | '\r' :: '\n' :: r2 =>
          if pr.1 = 0 then
            match r2 with
            | ['\r', '\n'] => some []
            | _ => none
          else if pr.1 ≤ r2.length then
            match r2.drop pr.1 with
            | '\r' :: '\n' :: r3 =>
              (dechunkAux fuel r3).map (fun tail => r2.take pr.1 ++ tail)
            | _ => none
          else none
        | _ => none
      else none

def dechunk (b : Bytes) : Option Bytes := dechunkAux b.length b

lemma hexDigit_spec (d : Nat) (hd : d < 16) :
    isHexDigitB (hexDigit d) = true ∧ hexVal (hexDigit d) = d := by
  interval_cases d <;> exact ⟨by decide, by decide⟩

lemma hexStr_hex (n : Nat) :
    (∀ c ∈ hexStr n, isHexDigitB c = true) ∧ hexStr n ≠ [] := by
  induction n using Nat.strong_induction_on with
  | _ n ih =>
    rw [hexStr_unfold]
    split
    · constructor
      · intro c hc
        simp at hc
        subst hc
        exact (hexDigit_spec n (by omega)).1
      · simp
    · constructor
      · intro c hc
        rcases List.mem_append.mp hc with h | h
        · exact (ih (n / 16) (Nat.div_lt_self (by omega) (by omega))).1 c h
        · simp at h
          subst h
          exact (hexDigit_spec (n % 16) (Nat.mod_lt n (by omega))).1
      · simp

lemma parseHex_stop (r : Bytes) (acc : Nat) (h : noHexHead r) :
    parseHex r acc = (acc, r) := by
  cases r with
  | nil => rfl
  | cons c t =>
    unfold parseHex noHexHead at *
    simp [h]

lemma parseHex_digits (n : Nat) : ∀ (r : Bytes) (acc : Nat),
    parseHex (hexStr n ++ r) acc = parseHex r (acc * 16 ^ (hexStr n).length + n) := by
  induction n using Nat.strong_induction_on with
  | _ n ih =>
    intro r acc
    rw [hexStr_unfold]
    split
    · show parseHex (hexDigit n :: r) acc = _
      unfold parseHex
      rw [if_pos ((hexDigit_spec n (by omega)).1), (hexDigit_spec n (by omega)).2]
      have harith : 16 * acc + n = acc * 16 ^ ([hexDigit n].length) + n := by
        simp
        ring
      rw [harith]
      cases r <;> rfl
    · rw [List.append_assoc,
        ih (n / 16) (Nat.div_lt_self (by omega) (by omega)) ([hexDigit (n % 16)] ++ r) acc]
      show parseHex (hexDigit (n % 16) :: r) _ = _
      unfold parseHex
      rw [if_pos ((hexDigit_spec (n % 16) (Nat.mod_lt n (by omega))).1),
        (hexDigit_spec (n % 16) (Nat.mod_lt n (by omega))).2]
      have hdm : 16 * (n / 16) + n % 16 = n := by omega
      have harith : 16 * (acc * 16 ^ (hexStr (n / 16)).length + n / 16) + n % 16 =
          acc * 16 ^ ((hexStr (n / 16) ++ [hexDigit (n % 16)]).length) + n := by
        calc 16 * (acc * 16 ^ (hexStr (n / 16)).length + n / 16) + n % 16
            = acc * (16 ^ (hexStr (n / 16)).length * 16) + (16 * (n / 16) + n % 16) := by ring
          _ = acc * (16 ^ (hexStr (n / 16)).length * 16) + n := by rw [hdm]
          _ = acc * 16 ^ ((hexStr (n / 16) ++ [hexDigit (n % 16)]).length) + n := by
              simp [pow_succ]
      rw [harith]
      cases r <;> rfl

lemma parseHex_chunkSize (n : Nat) (r : Bytes) (h : noHexHead r) :
    parseHex (hexStr n ++ r) 0 = (n, r) := by
  rw [parseHex_digits n r 0, parseHex_stop r _ h]
  simp

/-- One encoded chunk at the front of the stream parses off, yielding
its payload. -/
lemma dechunkAux_chunk (f : Nat) (body rest : Bytes) (hb : body ≠ []) :
    dechunkAux (f + 1) (encodeChunk body ++ rest) =
      (dechunkAux f rest).map (fun tail => body ++ tail) := by
  have hbpos : 0 < body.length := List.length_pos.mpr hb
  obtain ⟨d, ds, hds⟩ : ∃ d ds, hexStr body.length = d :: ds := by
    cases hx : hexStr body.length with
    | nil => exact absurd hx (hexStr_hex body.length).2
    | cons d ds => exact ⟨d, ds, rfl⟩
  have einput : encodeChunk body ++ rest =
      d :: (ds ++ ('\r' :: '\n' :: (body ++ ('\r' :: '\n' :: rest)))) := by
    show (hexStr body.length ++ crlfB ++ body ++ crlfB) ++ rest = _
    rw [hds]
    simp [crlfB, str]
  have hdhex : isHexDigitB d = true :=
    (hexStr_hex body.length).1 d (by rw [hds]; simp)
  have hparse : parseHex (d :: (ds ++ ('\r' :: '\n' :: (body ++ ('\r' :: '\n' :: rest))))) 0 =
      (body.length, '\r' :: '\n' :: (body ++ ('\r' :: '\n' :: rest))) := by
    have hnh : noHexHead ('\r' :: '\n' :: (body ++ ('\r' :: '\n' :: rest))) := by
      show isHexDigitB '\r' = false
      decide
    have h1 := parseHex_chunkSize body.length
      ('\r' :: '\n' :: (body ++ ('\r' :: '\n' :: rest))) hnh
    rw [hds] at h1
    simpa using h1
  rw [einput]
  simp only [dechunkAux, hdhex, if_true, hparse]
  have hzero : ¬ (body.length = 0) := by omega
  have hle : body.length ≤ (body ++ ('\r' :: '\n' :: rest)).length := by
    simp
  rw [if_neg hzero, if_pos hle]
  have hdrop : (body ++ ('\r' :: '\n' :: rest)).drop body.length = '\r' :: '\n' :: rest :=
    List.drop_left body _
  have htake : (body ++ ('\r' :: '\n' :: rest)).take body.length = body :=
    List.take_left body _
  rw [hdrop, htake]
  rfl

/-- De-chunking the encoded stream recovers the concatenated payloads. -/
lemma dechunkAux_encode : ∀ (cs : List Bytes) (fuel : Nat), cs.length < fuel →
    (∀ c ∈ cs, c ≠ []) →
    dechunkAux fuel (encodeChunks cs ++ chunkEnd) = some cs.flatten := by
  intro cs
  induction cs with
  | nil =>
    intro fuel hf _
    obtain ⟨f, rfl⟩ : ∃ f, fuel = f + 1 := ⟨fuel - 1, by omega⟩
    rfl
  | cons c cs ih =>
    intro fuel hf hne
    obtain ⟨f, rfl⟩ : ∃ f, fuel = f + 1 := ⟨fuel - 1, by omega⟩
    have hc : c ≠ [] := hne c (by simp)
    have e1 : encodeChunks (c :: cs) ++ chunkEnd =
        encodeChunk c ++ (encodeChunks cs ++ chunkEnd) := by
      show (encodeChunk c ++ encodeChunks cs) ++ chunkEnd = _
      simp
    rw [e1, dechunkAux_chunk f c (encodeChunks cs ++ chunkEnd) hc,
      ih f (by simpa using Nat.lt_of_succ_lt_succ hf) (fun x hx => hne x (by simp [hx]))]
    simp

lemma encodeChunks_length_ge (cs : List Bytes) : cs.length ≤ (encodeChunks cs).length := by
  induction cs with
  | nil => simp [encodeChunks]
  | cons c cs ih =>
    have h1 : 1 ≤ (encodeChunk c).length := by
      have h2 : 0 < (hexStr c.length).length :=
        List.length_pos.mpr (hexStr_hex c.length).2
      simp [encodeChunk]
      omega
    have e : encodeChunks (c :: cs) = encodeChunk c ++ encodeChunks cs := rfl
    rw [e]
    simp only [List.length_cons, List.length_append]
    omega

lemma dechunk_encode (cs : List Bytes) (h : ∀ c ∈ cs, c ≠ []) :
    dechunk (encodeChunks cs ++ chunkEnd) = some cs.flatten := by
  unfold dechunk
  refine dechunkAux_encode cs _ ?_ h
  have h1 := encodeChunks_length_ge cs
  have h2 : chunkEnd.length = 5 := rfl
  simp only [List.length_append, h2]
  omega

/-- **C2.** For every non-HEAD exchange in which the handler declared no
Content-Length and either explicitly set `Transfer-Encoding: chunked`
or wrote more than the fixed buffer holds, the wire after
`FinishRequest` is the chunked header section followed by non-empty
chunks (hex size, CRLF, payload, CRLF each) and the zero-size-chunk
terminator with its blank line, and de-chunking that body yields
exactly the bytes the handler wrote. -/
theorem C2_chunked_framing (ext : GoEnv) (m : String) (size : Nat) (ib : Bytes)
    (hh : List (String × String)) (ws : List Bytes)
    (hib : ib.length = size) (hm : (m == "HEAD") = false)
    (hcl : hGet hh "Content-Length" = "")
    (hcase : hGet hh "Transfer-Encoding" = "chunked" ∨ size < ws.flatten.length) :
    ∃ cs : List Bytes, (∀ x ∈ cs, x ≠ []) ∧ cs.flatten = ws.flatten ∧
      (serveAndFinish ext m size ib hh ws).wire =
        chunkedHeader ext hh ++ (encodeChunks cs ++ chunkEnd) ∧
      dechunk (encodeChunks cs ++ chunkEnd) = some ws.flatten := by
  have hserve : serveAndFinish ext m size ib hh ws =
      finishRequest ext (runWrites ext (initR m size ib hh) ws) := rfl
  by_cases hte : hGet hh "Transfer-Encoding" = "chunked"
  · cases ws with
    | nil =>
      refine ⟨[], by simp, rfl, ?_, by simpa using dechunk_encode [] (by simp)⟩
      rw [hserve]
      exact c2_finish_fresh ext m size ib hh hcl hte
    | cons d rest =>
      have e3 : writeHeaderCore (initR m size ib hh) 200 =
          c2State m size hh false false 0 ib { transferEncoding := "chunked" }
            ⟨false, true⟩ [] [] := by
        rw [writeHeaderCore_chunkedTE _ 200 hcl hte]
        rfl
      have erun : runWrites ext (initR m size ib hh) (d :: rest) =
          runWrites ext ((respWrite ext (writeHeaderCore (initR m size ib hh) 200) d).2) rest := by
        show runWrites ext ((respWrite ext (initR m size ib hh) d).2) rest = _
        rw [respWrite_writeHeaderFirst ext _ d rfl rfl]
      have hinv0 : C2Inv ext m size hh []
          (c2State m size hh false false 0 ib { transferEncoding := "chunked" }
            ⟨false, true⟩ [] []) := by
        refine ⟨false, false, 0, ib, { transferEncoding := "chunked" }, ⟨false, true⟩,
          [], [], [], rfl, by simp, fun _ => rfl, Or.inl ⟨rfl, rfl, rfl, rfl⟩, ?_, rfl⟩
        intro x hx
        simp at hx
      have h1 := respWrite_c2 ext m size hh hm [] d _ hinv0
      have h2 := c2_run ext m size hh hm rest ([] ++ d) _ h1
      rw [← e3] at h2
      rw [hserve, erun]
      obtain ⟨cs, hne, hflat, hwire⟩ := c2_finish_main ext m size hh hm _ _ h2
      refine ⟨cs, hne, ?_, hwire, ?_⟩
      · rw [hflat]
        simp
      · rw [dechunk_encode cs hne, hflat]
        simp
  · have hsize : size < ws.flatten.length := by
      rcases hcase with h | h
      · exact absurd h hte
      · exact h
    cases ws with
    | nil =>
      simp at hsize
    | cons d rest =>
      have erun : runWrites ext (initR m size ib hh) (d :: rest) =
          runWrites ext (p1State m size ib hh []) (d :: rest) := by
        show runWrites ext ((respWrite ext (initR m size ib hh) d).2) rest =
          runWrites ext ((respWrite ext (p1State m size ib hh []) d).2) rest
        rw [respWrite_writeHeaderFirst ext _ d rfl rfl,
          writeHeaderCore_plain _ 200 hcl hte, ← p1State_nil m size ib hh]
      rcases c2_run_from_p1 ext m size ib hh hm hib hcl (d :: rest) [] (by simp) with
        ⟨heq, hlen⟩ | hinv
      · exfalso
        have hfl : (d :: rest).flatten.length = d.length + (List.map List.length rest).sum := by
          simp
        simp at hlen
        omega
      · rw [hserve, erun]
        simp only [List.nil_append] at hinv
        obtain ⟨cs, hne, hflat, hwire⟩ := c2_finish_main ext m size hh hm _ _ hinv
        exact ⟨cs, hne, hflat, hwire, by rw [dechunk_encode cs hne, hflat]⟩

theorem C2_chunked_framing_witness :
    (2 : Nat) < ([str "abc"] : List Bytes).flatten.length ∧
    ∃ cs : List Bytes, (∀ x ∈ cs, x ≠ []) ∧ cs.flatten = ([str "abc"] : List Bytes).flatten ∧
      (serveAndFinish extW "GET" 2 (List.replicate 2 'z') [] [str "abc"]).wire =
        chunkedHeader extW [] ++ (encodeChunks cs ++ chunkEnd) ∧
      dechunk (encodeChunks cs ++ chunkEnd) = some ([str "abc"] : List Bytes).flatten :=
  ⟨by decide, C2_chunked_framing extW "GET" 2 (List.replicate 2 'z') [] [str "abc"]
    (by decide) (by decide) (by decide) (Or.inr (by decide))⟩
